import Mathlib

/-!
Verification of the checkout/cart subsystem of the gigsta store backend.

The Python services (`src/crud/cartService.py`, `src/crud/checkOutService.py`,
`src/routes/stripeWebhookHandler.py`) are shallowly embedded: the document
store (MongoDB via Beanie) becomes an explicit `DB` state record, every
service coroutine becomes a pure state-passing function, `datetime.utcnow()`
becomes an explicit `now : Nat` argument, and the Stripe client becomes an
oracle argument (`Option StripeSession` / a retrieved payment-intent value).
Monetary values (Python floats rounded with `round(x, 2)`) are modelled as
rationals with `round2`, an exact round-half-to-even at two decimals, which
is the rounding mode of Python's built-in `round`.
-/

namespace Gigsta

/-! ## Banker's rounding at two decimals (Python `round(x, 2)`)

`rhe x` is round-half-to-even of a rational to an integer, written with
integer arithmetic on the numerator/denominator so that it evaluates by
kernel reduction; `rhe_eq` restates it through `Int.floor`/`Int.fract`. -/

def rhe (x : ℚ) : ℤ :=
  let f := x.num.fdiv x.den
  let r2 := 2 * (x.num - f * x.den)
  if r2 < x.den then f
  else if (x.den : ℤ) < r2 then f + 1
  else if f % 2 = 0 then f else f + 1

/-- `round(x, 2)` of Python: round half to even at the second decimal. -/
def round2 (x : ℚ) : ℚ := (rhe (x * 100) : ℚ) / 100


/-! ## Data model (src/models) -/

/-- `ProductStatus` is stored as a plain string (`use_enum_values`); the
services only ever compare it with `"published"`. -/
structure Product where
  id : Nat
  seller_id : Nat
  price : ℚ
  status : String
  stripe_price_id : Option String
  is_recurring : Bool
deriving DecidableEq

/-- `CartItem` of src/models/cartModel.py.  The pydantic field declares
`quantity : int = Field(..., gt=0)`: construction with a non-positive
quantity raises, but in-place assignment bypasses the validator. -/
structure CartItem where
  product_id : Nat
  quantity : Int
deriving DecidableEq

structure Cart where
  user_id : Nat
  items : List CartItem
  created_at : Nat
  updated_at : Nat
deriving DecidableEq

inductive StripeProviderStatus where
  | notStarted
  | onboardingInProgress
  | activateSubscriptionComplete
  | connectVerificationPending
  | active
  | rejected
deriving DecidableEq

structure User where
  id : Nat
  full_name : Option String
  tradingName : Option String
  email : Option String
  stripe_connect_account_id : Option String
  stripe_provider_status : StripeProviderStatus
deriving DecidableEq

inductive OrderStatus where
  | pending
  | processing
  | completed
  | cancelled
  | refunded
deriving DecidableEq

/-- `Order` of src/models/orderModel.py (pydantic declares
`total_amount > 0`, `platform_fee_amount ≥ 0`, `seller_amount > 0`;
the constructor validation is applied at the creation site). -/
structure Order where
  id : Nat
  user_id : Nat
  seller_id : Nat
  items : List CartItem
  total_amount : ℚ
  platform_fee_amount : ℚ
  seller_amount : ℚ
  is_recurring : Bool
  status : OrderStatus
  stripe_checkout_session_id : Option String
  stripe_payment_intent_id : Option String
  stripe_account_id : Option String
  created_at : Nat
  updated_at : Nat
  completed_at : Option Nat
deriving DecidableEq

/-- The document store: one collection per model, plus the id supply for
`Order.insert()`. -/
structure DB where
  products : List Product
  users : List User
  carts : List Cart
  orders : List Order
  next_order_id : Nat
deriving DecidableEq

/-- Replace the first element satisfying `p` (a Beanie `save()` writes the
one matching document). -/
def setFirst (p : α → Bool) (a : α) : List α → List α
  | [] => []
  | x :: xs => if p x then a :: xs else x :: setFirst p a xs

def DB.getProduct (db : DB) (pid : Nat) : Option Product :=
  db.products.find? (fun p => p.id == pid)

def DB.getUser (db : DB) (uid : Nat) : Option User :=
  db.users.find? (fun u => u.id == uid)

def DB.findCart (db : DB) (uid : Nat) : Option Cart :=
  db.carts.find? (fun c => c.user_id == uid)

def DB.saveCart (db : DB) (c : Cart) : DB :=
  { db with carts := setFirst (fun c0 => c0.user_id == c.user_id) c db.carts }

def DB.saveOrder (db : DB) (o : Order) : DB :=
  { db with orders := setFirst (fun o0 => o0.id == o.id) o db.orders }

def DB.saveUser (db : DB) (u : User) : DB :=
  { db with users := setFirst (fun u0 => u0.id == u.id) u db.users }

/-- Python truthiness of an optional string (`a or b`): `None` and `""` are
falsy. -/
def strOr (a : Option String) (b : String) : String :=
  match a with
  | none => b
  | some s => if s = "" then b else s

/-- Python truthiness of an optional string used in a condition
(`not seller.stripe_connect_account_id`). -/
def strTruthy (a : Option String) : Bool :=
  match a with
  | none => false
  | some s => s ≠ ""

deriving instance DecidableEq for Except

/-- Errors surfaced by the services (`HTTPException`s by status/detail,
plus the pydantic `ValidationError`). -/
inductive SvcError where
  | productNotFound
  | productNotAvailable
  | itemNotInCart
  | validationError
  | emptyCart
  | orderNotFound
  | stripeError
  | checkoutError
deriving DecidableEq

/-! ## CartService (src/crud/cartService.py) -/

namespace CartService

/-- `CartService.get_or_create_cart`: the lookup, inserting a fresh empty
cart when the user has none. -/
def get_or_create_cart (db : DB) (uid now : Nat) : DB × Cart :=
  match db.findCart uid with
  | some cart => (db, cart)
  | none =>
      let cart : Cart := { user_id := uid, items := [], created_at := now, updated_at := now }
      ({ db with carts := db.carts ++ [cart] }, cart)

/-- In-place mutation of the first cart line matching `pid`
(`existing_item.quantity += quantity` / `item.quantity = quantity`). -/
def updateFirstItem (pid : Nat) (f : CartItem → CartItem) : List CartItem → List CartItem
  | [] => []
  | it :: rest => if it.product_id == pid then f it :: rest else it :: updateFirstItem pid f rest

/-- `CartService.add_item`.  The `validationError` branch is pydantic
rejecting `CartItem(product_id=…, quantity=…)` with a non-positive
quantity; the increment branch mutates the existing object and is not
re-validated. -/
def add_item (db : DB) (uid pid : Nat) (quantity : Int) (now : Nat) :
    Except SvcError (DB × Cart) :=
  match db.getProduct pid with
  | none => .error .productNotFound
  | some product =>
      if product.status ≠ "published" then .error .productNotAvailable
      else
        let (db1, cart) := get_or_create_cart db uid now
        match cart.items.find? (fun it => it.product_id == pid) with
        | some _ =>
            let cart1 := { cart with
              items := updateFirstItem pid (fun it => { it with quantity := it.quantity + quantity }) cart.items,
              updated_at := now }
            .ok (db1.saveCart cart1, cart1)
        | none =>
            if quantity ≤ 0 then .error .validationError
            else
              let cart1 := { cart with
                items := cart.items ++ [{ product_id := pid, quantity := quantity }],
                updated_at := now }
              .ok (db1.saveCart cart1, cart1)

/-- `CartService.remove_item`. -/
def remove_item (db : DB) (uid pid : Nat) (now : Nat) : DB × Cart :=
  let (db1, cart) := get_or_create_cart db uid now
  let cart1 := { cart with
    items := cart.items.filter (fun it => it.product_id ≠ pid),
    updated_at := now }
  (db1.saveCart cart1, cart1)

/-- `CartService.update_item_quantity`. -/
def update_item_quantity (db : DB) (uid pid : Nat) (quantity : Int) (now : Nat) :
    Except SvcError (DB × Cart) :=
  if quantity ≤ 0 then .ok (remove_item db uid pid now)
  else
    let (db1, cart) := get_or_create_cart db uid now
    match cart.items.find? (fun it => it.product_id == pid) with
    | none => .error .itemNotInCart
    | some _ =>
        let cart1 := { cart with
          items := updateFirstItem pid (fun it => { it with quantity := quantity }) cart.items,
          updated_at := now }
        .ok (db1.saveCart cart1, cart1)

/-- `CartService.clear_cart`. -/
def clear_cart (db : DB) (uid now : Nat) : DB × Cart :=
  let (db1, cart) := get_or_create_cart db uid now
  let cart1 := { cart with items := [], updated_at := now }
  (db1.saveCart cart1, cart1)

/-! Checkout grouping (`CartService.get_grouped_cart_for_checkout`).
The Python accumulator is a dict keyed by `(seller_id, is_recurring)`,
insertion-ordered; it is embedded as an association list. -/

structure GroupItem where
  product_id : Nat
  quantity : Int
  product : Product
  item_total : ℚ
deriving DecidableEq

structure CartGroup where
  seller_id : Nat
  seller_name : String
  is_recurring : Bool
  group_total_price : ℚ
  items : List GroupItem
deriving DecidableEq

abbrev GroupKey := Nat × Bool

def hasKey (gs : List (GroupKey × CartGroup)) (key : GroupKey) : Bool :=
  gs.any (fun kg => kg.1 = key)

/-- `groups[group_key]["group_total_price"] += item_total` together with
`groups[group_key]["items"].append(...)`, on the (unique) entry for `key`. -/
def appendToKey (key : GroupKey) (gi : GroupItem) (t : ℚ) :
    List (GroupKey × CartGroup) → List (GroupKey × CartGroup)
  | [] => []
  | (k, g) :: rest =>
      if k = key then
        (k, { g with group_total_price := g.group_total_price + t, items := g.items ++ [gi] }) :: rest
      else (k, g) :: appendToKey key gi t rest

/-- The fresh group dict created when `group_key not in groups`. -/
def initGroup (p : Product) (seller : User) : CartGroup :=
  { seller_id := p.seller_id,
    seller_name := strOr seller.tradingName (strOr seller.full_name "Unknown Seller"),
    is_recurring := p.is_recurring,
    group_total_price := 0,
    items := [] }

/-- One iteration of the grouping loop over a cart line: skip when the
product is missing or unpublished, skip when the seller is missing,
otherwise accumulate into the line's `(seller_id, is_recurring)` group. -/
def groupStep (db : DB) (gs : List (GroupKey × CartGroup)) (item : CartItem) :
    List (GroupKey × CartGroup) :=
  match db.getProduct item.product_id with
  | none => gs
  | some p =>
      if p.status ≠ "published" then gs
      else
        match db.getUser p.seller_id with
        | none => gs
        | some seller =>
            let key : GroupKey := (p.seller_id, p.is_recurring)
            let gs1 := if hasKey gs key then gs else gs ++ [(key, initGroup p seller)]
            let item_total := p.price * (item.quantity : ℚ)
            let gi : GroupItem :=
              { product_id := item.product_id, quantity := item.quantity,
                product := p, item_total := round2 item_total }
            appendToKey key gi item_total gs1

/-- `CartService.get_grouped_cart_for_checkout`.  Returns the state (the
lazy cart creation is its only possible write) and the group list with
per-group totals rounded at the end. -/
def get_grouped_cart_for_checkout (db : DB) (uid now : Nat) : DB × List CartGroup :=
  let (db1, cart) := get_or_create_cart db uid now
  let gs := cart.items.foldl (groupStep db) []
  (db1, gs.map (fun kg => { kg.2 with group_total_price := round2 kg.2.group_total_price }))

end CartService

/-! ## CheckOutService (src/crud/checkOutService.py) -/

/-- The provider's response to `stripe.checkout.Session.create`. -/
structure StripeSession where
  id : String
  client_secret : String
deriving DecidableEq

structure SessionResult where
  session_id : String
  client_secret : String
  order_id : Nat
  seller_name : String
  total_amount : ℚ
  platform_fee : ℚ
  is_recurring : Bool
deriving DecidableEq

namespace CheckOutService

/-- `CheckOutService.PLATFORM_FEE_PERCENTAGE` (0.10). -/
def PLATFORM_FEE_PERCENTAGE : ℚ := 1/10

/-- The body of `CheckOutService.calculate_platform_fee` with the class
constant as an explicit rate, so the spec's quantification over rates can
be stated:
`platform_fee = round(amount * rate, 2)`;
`seller_amount = round(amount - platform_fee, 2)`. -/
def calculate_fee (amount rate : ℚ) : ℚ × ℚ :=
  let platform_fee := round2 (amount * rate)
  let seller_amount := round2 (amount - platform_fee)
  (platform_fee, seller_amount)

/-- `CheckOutService.calculate_platform_fee`. -/
def calculate_platform_fee (amount : ℚ) : ℚ × ℚ :=
  calculate_fee amount PLATFORM_FEE_PERCENTAGE

/-- The `for item in group["items"]` loop of `create_checkout_session`:
validates each product's `stripe_price_id`, snapshots `(product_id,
quantity)` pairs for the order, and accumulates the gross total.
(The Stripe `line_items` payload built alongside is consumed only by the
provider oracle and is not materialised here.) -/
def buildItems (items : List CartService.GroupItem) : Option (List CartItem × ℚ) :=
  items.foldl
    (fun acc gi =>
      acc.bind (fun ct =>
        if strTruthy gi.product.stripe_price_id then
          some (ct.1 ++ [{ product_id := gi.product.id, quantity := gi.quantity }],
                ct.2 + gi.product.price * (gi.quantity : ℚ))
        else none))
    (some ([], 0))

/-- `CheckOutService.create_checkout_session` for one group.

The whole body runs inside `try/except`: a `stripe.error.StripeError`
becomes HTTP 400 ("Stripe error", `.stripeError` here) and any other
exception — including the `HTTPException`s raised by the body's own
validations and pydantic's `Order(...)` validation — is re-wrapped by the
generic handler into HTTP 500 ("Checkout error", `.checkoutError` here).

The provider oracle `provider` stands for `stripe.checkout.Session.create`:
`none` means the call raised `StripeError`.  The order is inserted
(status PENDING, no session id) before the provider is called; on success
the returned session id is saved onto that same order. -/
def create_checkout_session (db : DB) (uid : Nat) (group : CartService.CartGroup)
    (provider : Option StripeSession) (now : Nat) : DB × Except SvcError SessionResult :=
  match db.getUser uid with
  | none => (db, .error .checkoutError)
  | some _user =>
      match db.getUser group.seller_id with
      | none => (db, .error .checkoutError)
      | some seller =>
          if ¬ strTruthy seller.stripe_connect_account_id then (db, .error .checkoutError)
          else
            match buildItems group.items with
            | none => (db, .error .checkoutError)
            | some (cart_items, total_amount) =>
                let fees := calculate_platform_fee total_amount
                let platform_fee := fees.1
                let seller_amount := fees.2
                -- pydantic validation on `Order(...)`: total_amount > 0,
                -- seller_amount > 0, platform_fee_amount ≥ 0, and the nested
                -- item snapshot re-validated through CartItem (quantity > 0)
                if ¬ (0 < total_amount ∧ 0 < seller_amount ∧ 0 ≤ platform_fee ∧
                      ∀ it ∈ cart_items, 0 < it.quantity) then
                  (db, .error .checkoutError)
                else
                  let order : Order :=
                    { id := db.next_order_id,
                      user_id := uid,
                      seller_id := group.seller_id,
                      items := cart_items,
                      total_amount := total_amount,
                      platform_fee_amount := platform_fee,
                      seller_amount := seller_amount,
                      is_recurring := group.is_recurring,
                      status := .pending,
                      stripe_checkout_session_id := none,
                      stripe_payment_intent_id := none,
                      stripe_account_id := seller.stripe_connect_account_id,
                      created_at := now,
                      updated_at := now,
                      completed_at := none }
                  let db1 : DB :=
                    { db with orders := db.orders ++ [order], next_order_id := db.next_order_id + 1 }
                  match provider with
                  | none => (db1, .error .stripeError)
                  | some s =>
                      let order1 := { order with stripe_checkout_session_id := some s.id }
                      let db2 := db1.saveOrder order1
                      (db2,
                        .ok { session_id := s.id,
                              client_secret := s.client_secret,
                              order_id := order.id,
                              seller_name := group.seller_name,
                              total_amount := total_amount,
                              platform_fee := platform_fee,
                              is_recurring := group.is_recurring })

/-- The `for group in groups` loop of `create_all_checkout_sessions`:
sequential, stopping at the first failure with the state as of that
failure (earlier iterations' writes are kept).  `providers i` is the
provider's answer for the i-th processed group. -/
def sessionsLoop (uid now : Nat) (providers : Nat → Option StripeSession) :
    List CartService.CartGroup → Nat → DB → DB × Except SvcError (List SessionResult)
  | [], _, db => (db, .ok [])
  | g :: gs, i, db =>
      match create_checkout_session db uid g (providers i) now with
      | (db1, .error e) => (db1, .error e)
      | (db1, .ok r) =>
          match sessionsLoop uid now providers gs (i + 1) db1 with
          | (db2, .error e) => (db2, .error e)
          | (db2, .ok rs) => (db2, .ok (r :: rs))

/-- `CheckOutService.create_all_checkout_sessions`. -/
def create_all_checkout_sessions (db : DB) (uid : Nat)
    (providers : Nat → Option StripeSession) (now : Nat) :
    DB × Except SvcError (List SessionResult) :=
  let gd := CartService.get_grouped_cart_for_checkout db uid now
  if gd.2.isEmpty then (gd.1, .error .emptyCart)
  else sessionsLoop uid now providers gd.2 0 gd.1

/-- `CheckOutService.handle_checkout_completion`.

`retrieved_payment_intent` is `session.payment_intent` of the
`stripe.checkout.Session.retrieve` call (scoped to the connected account);
a retrieval exception would propagate before any mutation and is not
modelled.  The transition is applied unconditionally: status := COMPLETED,
payment-intent and fresh timestamps assigned, then every cart line whose
product id appears in the order's snapshot is removed from the buyer's
cart (which is left untouched when the buyer has no cart). -/
def handle_checkout_completion (db : DB) (session_id : String)
    (retrieved_payment_intent : Option String) (now : Nat) : DB × Except SvcError Order :=
  match db.orders.find? (fun o => o.stripe_checkout_session_id == some session_id) with
  | none => (db, .error .orderNotFound)
  | some order =>
      let order1 := { order with
        status := .completed,
        stripe_payment_intent_id := retrieved_payment_intent,
        completed_at := some now,
        updated_at := now }
      let db1 := db.saveOrder order1
      match db1.findCart order.user_id with
      | none => (db1, .ok order1)
      | some cart =>
          let order_product_ids := order.items.map (fun it => it.product_id)
          let cart1 := { cart with
            items := cart.items.filter (fun it => ¬ order_product_ids.contains it.product_id) }
          (db1.saveCart cart1, .ok order1)

/-- The PENDING order document `create_checkout_session` builds and
inserts (step 5 of the source) before the provider is called. -/
def pendingOrder (db : DB) (uid : Nat) (group : CartService.CartGroup) (seller : User)
    (cart_items : List CartItem) (total : ℚ) (now : Nat) : Order :=
  { id := db.next_order_id,
    user_id := uid,
    seller_id := group.seller_id,
    items := cart_items,
    total_amount := total,
    platform_fee_amount := (calculate_platform_fee total).1,
    seller_amount := (calculate_platform_fee total).2,
    is_recurring := group.is_recurring,
    status := .pending,
    stripe_checkout_session_id := none,
    stripe_payment_intent_id := none,
    stripe_account_id := seller.stripe_connect_account_id,
    created_at := now,
    updated_at := now,
    completed_at := none }

end CheckOutService

/-! ## Stripe webhook handler (src/routes/stripeWebhookHandler.py) -/

namespace Webhook

/-- The status the reconciler decides to move the provider to: ACTIVE when
both capability flags are set; a provider that was ACTIVE but lost a
capability reverts to CONNECT_VERIFICATION_PENDING; anyone else keeps
their current status. -/
def targetStatus (current : StripeProviderStatus) (charges_enabled payouts_enabled : Bool) :
    StripeProviderStatus :=
  if charges_enabled && payouts_enabled then .active
  else if current = .active then .connectVerificationPending
  else current

/-- `user_manager.get_user_by_stripe_connect_id`: the user/seller store
lookup by connected-account id.  Its implementation is not part of the
checkout sources; per the spec's user/seller store contract it is the
read lookup of the user holding that connected-account id. -/
def getUserByConnectId (db : DB) (connect_id : String) : Option User :=
  db.users.find? (fun u => u.stripe_connect_account_id == some connect_id)

/-- `handle_connect_account_update` background task.  Returns the new
state together with whether `user.save()` was executed.  A missing user is
logged and skipped; when the computed target status equals the stored one
the task returns before any write (the idempotency guard).  (The
`onboarding_status` mutation the source performs after `save()` is never
persisted and has no observable effect on the store.) -/
def handle_connect_account_update (db : DB) (connect_id : String)
    (charges_enabled payouts_enabled : Bool) : DB × Bool :=
  match getUserByConnectId db connect_id with
  | none => (db, false)
  | some user =>
      let target := targetStatus user.stripe_provider_status charges_enabled payouts_enabled
      if user.stripe_provider_status = target then (db, false)
      else (db.saveUser { user with stripe_provider_status := target }, true)

end Webhook

/-! ## Invariants and well-formedness predicates used in statements -/

/-- Every line of the cart stores a positive quantity (the `CartItem`
pydantic contract). -/
def cartPos (c : Cart) : Prop := ∀ it ∈ c.items, 0 < it.quantity

/-- Every stored cart satisfies `cartPos`. -/
def DB.cartsPos (db : DB) : Prop := ∀ c ∈ db.carts, cartPos c

/-- The cart holds at most one line per product identifier. -/
def cartIdsNodup (c : Cart) : Prop := (c.items.map (fun it => it.product_id)).Nodup

/-- Every stored cart satisfies `cartIdsNodup`. -/
def DB.cartsNodup (db : DB) : Prop := ∀ c ∈ db.carts, cartIdsNodup c

/-- Total stored quantity of a product in a cart. -/
def quantityOf (c : Cart) (pid : Nat) : Int :=
  ((c.items.filter (fun it => it.product_id == pid)).map (fun it => it.quantity)).sum

/-- Order identifiers already allocated stay below the id supply (holds of
every store reachable through `Order.insert`). -/
def DB.wfOrders (db : DB) : Prop := ∀ o ∈ db.orders, o.id < db.next_order_id

/-- User documents have pairwise distinct identifiers. -/
def DB.usersNodup (db : DB) : Prop := (db.users.map (fun u => u.id)).Nodup

/-- Order documents have pairwise distinct identifiers. -/
def DB.ordersNodup (db : DB) : Prop := (db.orders.map (fun o => o.id)).Nodup

/-- The skip condition actually applied by the grouping loop: a cart line
is kept iff its product exists, is published, and its seller exists. -/
def keepLine (db : DB) (it : CartItem) : Bool :=
  match db.getProduct it.product_id with
  | none => false
  | some p => p.status == "published" && (db.getUser p.seller_id).isSome

/-- The skip condition asserted by the claim: product exists, published,
and the seller holds a payment-provider connected account. -/
def keepLineSpec (db : DB) (it : CartItem) : Bool :=
  match db.getProduct it.product_id with
  | none => false
  | some p =>
      p.status == "published" &&
        (match db.getUser p.seller_id with
         | none => false
         | some u => u.stripe_connect_account_id.isSome)

/-- The multiset of cart lines covered by a list of checkout groups, as
(product id, quantity) pairs. -/
def linesOf (gs : List CartService.CartGroup) : List (Nat × Int) :=
  (gs.map (fun g => g.items.map (fun gi => (gi.product_id, gi.quantity)))).flatten

/-- `linesOf` for the keyed accumulator of the grouping fold. -/
def linesOfK (gs : List (CartService.GroupKey × CartService.CartGroup)) : List (Nat × Int) :=
  (gs.map (fun kg => kg.2.items.map (fun gi => (gi.product_id, gi.quantity)))).flatten

/-- Invariant of the grouping accumulator: each entry's group carries its
key's seller and recurring flag, every collected line's product matches
that key, and the running total is the exact sum of the collected lines'
price × quantity. -/
def accInv (gs : List (CartService.GroupKey × CartService.CartGroup)) : Prop :=
  ∀ kg ∈ gs,
    kg.2.seller_id = kg.1.1 ∧ kg.2.is_recurring = kg.1.2 ∧
    (∀ gi ∈ kg.2.items,
      gi.product.seller_id = kg.1.1 ∧ gi.product.is_recurring = kg.1.2) ∧
    kg.2.group_total_price
      = ((kg.2.items.map (fun gi => gi.product.price * (gi.quantity : ℚ))).sum)

/-! ## Concrete fixtures used by witnesses and counterexamples -/

/-- A published product of seller 2, priced 5.00, with a Stripe price. -/
def prodA : Product :=
  { id := 10, seller_id := 2, price := 5, status := "published",
    stripe_price_id := some "price_10", is_recurring := false }

/-- A second published product of seller 2, priced 30.00. -/
def prodB : Product :=
  { id := 11, seller_id := 2, price := 30, status := "published",
    stripe_price_id := some "price_11", is_recurring := true }

/-- Seller 2, Stripe-onboarded (connected account present). -/
def sellerOnboarded : User :=
  { id := 2, full_name := some "Ada Seller", tradingName := some "Ada Goods",
    email := some "ada@example.com", stripe_connect_account_id := some "acct_2",
    stripe_provider_status := .active }

/-- Seller 2 without a connected account. -/
def sellerOffline : User :=
  { id := 2, full_name := some "Ada Seller", tradingName := some "Ada Goods",
    email := some "ada@example.com", stripe_connect_account_id := none,
    stripe_provider_status := .connectVerificationPending }

/-- Buyer 1. -/
def buyer : User :=
  { id := 1, full_name := some "Bob Buyer", tradingName := none,
    email := some "bob@example.com", stripe_connect_account_id := none,
    stripe_provider_status := .notStarted }

/-- A store with buyer 1 holding a cart of 3 × product 10; seller onboarded. -/
def dbCart : DB :=
  { products := [prodA], users := [buyer, sellerOnboarded],
    carts := [{ user_id := 1, items := [{ product_id := 10, quantity := 3 }],
                created_at := 0, updated_at := 0 }],
    orders := [], next_order_id := 0 }

/-- Same store but the seller has no connected account. -/
def dbCartOffline : DB :=
  { dbCart with users := [buyer, sellerOffline] }

/-- A store where buyer 1 has no cart document yet. -/
def dbNoCart : DB :=
  { products := [prodA], users := [buyer, sellerOnboarded], carts := [],
    orders := [], next_order_id := 0 }

/-- A store with a pending order (session "sess_1") for buyer 1 covering
product 10, and buyer 1's live cart holding products 10 and 11. -/
def dbOrder : DB :=
  { products := [prodA, prodB], users := [buyer, sellerOnboarded],
    carts := [{ user_id := 1,
                items := [{ product_id := 10, quantity := 2 },
                          { product_id := 11, quantity := 1 }],
                created_at := 0, updated_at := 0 }],
    orders := [{ id := 0, user_id := 1, seller_id := 2,
                 items := [{ product_id := 10, quantity := 2 }],
                 total_amount := 10, platform_fee_amount := 1, seller_amount := 9,
                 is_recurring := false, status := .pending,
                 stripe_checkout_session_id := some "sess_1",
                 stripe_payment_intent_id := none,
                 stripe_account_id := some "acct_2",
                 created_at := 0, updated_at := 0, completed_at := none }],
    next_order_id := 1 }

/-- The checkout group for buyer 1's cart in `dbCart` (one-time items of
seller 2). -/
def groupA : CartService.CartGroup :=
  { seller_id := 2, seller_name := "Ada Goods", is_recurring := false,
    group_total_price := 15,
    items := [{ product_id := 10, quantity := 3, product := prodA, item_total := 15 }] }

/-- A store whose cart groups into two checkout sessions: a one-time group
(product 10) and a recurring group (product 11), both of seller 2. -/
def dbTwo : DB :=
  { products := [prodA, prodB], users := [buyer, sellerOnboarded],
    carts := [{ user_id := 1,
                items := [{ product_id := 10, quantity := 1 },
                          { product_id := 11, quantity := 1 }],
                created_at := 0, updated_at := 0 }],
    orders := [], next_order_id := 0 }

/-- A provider oracle that accepts the first session and fails the second. -/
def providersAB : Nat → Option StripeSession :=
  fun i => if i = 0 then some { id := "sess_A", client_secret := "cs_A" } else none

/-! ## Properties of the rounding primitive -/

/-- `rhe` through the `Int.floor`/`Int.fract` API: round down below the
half, round up above it, and round to the even neighbour on a tie. -/
theorem rhe_eq (x : ℚ) : rhe x =
    if Int.fract x < 1/2 then ⌊x⌋
    else if 1/2 < Int.fract x then ⌊x⌋ + 1
    else if ⌊x⌋ % 2 = 0 then ⌊x⌋ else ⌊x⌋ + 1 := by
  have hd : (0:ℤ) < (x.den : ℤ) := by exact_mod_cast x.pos
  have hfl : x.num.fdiv x.den = ⌊x⌋ := by
    rw [Int.fdiv_eq_ediv _ (by positivity), Rat.floor_def]
  have hfr : Int.fract x = ((x.num - ⌊x⌋ * x.den : ℤ) : ℚ) / (x.den : ℚ) := by
    rw [Int.fract]
    push_cast
    rw [sub_div]
    congr 1
    · rw [Rat.num_div_den]
    · rw [mul_div_assoc, div_self (by positivity), mul_one]
  have h1 : (2 * (x.num - ⌊x⌋ * x.den) < (x.den:ℤ)) ↔ Int.fract x < 1/2 := by
    rw [hfr, div_lt_div_iff₀ (by positivity) (by norm_num : (0:ℚ) < 2)]
    constructor
    · intro h
      have h' : ((2 * (x.num - ⌊x⌋ * x.den) : ℤ) : ℚ) < ((x.den : ℤ) : ℚ) := by exact_mod_cast h
      push_cast at h' ⊢
      nlinarith
    · intro h
      have h' : ((2 * (x.num - ⌊x⌋ * x.den) : ℤ) : ℚ) < ((x.den : ℤ) : ℚ) := by
        push_cast
        push_cast at h
        nlinarith
      exact_mod_cast h'
  have h2 : ((x.den:ℤ) < 2 * (x.num - ⌊x⌋ * x.den)) ↔ 1/2 < Int.fract x := by
    rw [hfr, div_lt_div_iff₀ (by norm_num : (0:ℚ) < 2) (by positivity)]
    constructor
    · intro h
      have h' : ((x.den : ℤ) : ℚ) < ((2 * (x.num - ⌊x⌋ * x.den) : ℤ) : ℚ) := by exact_mod_cast h
      push_cast at h' ⊢
      nlinarith
    · intro h
      have h' : ((x.den : ℤ) : ℚ) < ((2 * (x.num - ⌊x⌋ * x.den) : ℤ) : ℚ) := by
        push_cast
        push_cast at h
        nlinarith
      exact_mod_cast h'
  rw [rhe]
  simp only [hfl]
  rw [if_congr h1 rfl rfl]
  congr 1
  rw [if_congr h2 rfl rfl]

theorem rhe_nonneg {x : ℚ} (h : -(1/2) ≤ x) : 0 ≤ rhe x := by
  rw [rhe_eq]
  have hfr0 := Int.fract_nonneg x
  have hfx := Int.floor_add_fract x
  have hf1 : (-1 : ℤ) ≤ ⌊x⌋ := Int.le_floor.mpr (by push_cast; linarith)
  split
  · rename_i hlt
    have hne : ⌊x⌋ ≠ -1 := by
      intro hc
      rw [hc] at hfx
      push_cast at hfx
      linarith
    omega
  · split
    · omega
    · split
      · rename_i hge hle hev
        omega
      · omega

theorem rhe_le (x : ℚ) : (rhe x : ℚ) ≤ x + 1/2 := by
  rw [rhe_eq]
  have hfx := Int.floor_add_fract x
  split
  · have := Int.floor_le x
    linarith
  · rename_i h1
    push_neg at h1
    split
    · push_cast
      linarith
    · split
      · have := Int.floor_le x
        linarith
      · push_cast
        linarith

theorem le_rhe (x : ℚ) : x - 1/2 ≤ (rhe x : ℚ) := by
  rw [rhe_eq]
  have hfx := Int.floor_add_fract x
  have hfr0 := Int.fract_nonneg x
  have h1 := Int.lt_floor_add_one x
  split
  · linarith
  · split
    · push_cast
      linarith
    · split
      · linarith
      · push_cast
        linarith

theorem rhe_mono {x y : ℚ} (h : x ≤ y) : rhe x ≤ rhe y := by
  rcases lt_or_le ⌊x⌋ ⌊y⌋ with hf | hf
  · have hx : rhe x ≤ ⌊x⌋ + 1 := by
      rw [rhe_eq]
      split
      · omega
      · split
        · omega
        · split <;> omega
    have hy : ⌊y⌋ ≤ rhe y := by
      rw [rhe_eq]
      split
      · omega
      · split
        · omega
        · split <;> omega
    omega
  · have hf2 : ⌊x⌋ = ⌊y⌋ := le_antisymm (Int.floor_le_floor h) hf
    have hfr : Int.fract x ≤ Int.fract y := by
      rw [Int.fract, Int.fract, hf2]
      linarith
    rw [rhe_eq, rhe_eq, hf2]
    by_cases h1 : Int.fract x < 1/2
    · rw [if_pos h1]
      split
      · omega
      · split
        · omega
        · split <;> omega
    · rw [if_neg h1]
      push_neg at h1
      have hy1 : ¬ Int.fract y < 1/2 := by push_neg; linarith
      rw [if_neg hy1]
      by_cases h2 : 1/2 < Int.fract x
      · rw [if_pos h2, if_pos (lt_of_lt_of_le h2 hfr)]
      · rw [if_neg h2]
        push_neg at h2
        by_cases h3 : 1/2 < Int.fract y
        · rw [if_pos h3]
          split <;> omega
        · rw [if_neg h3]

theorem round2_nonneg {x : ℚ} (h : -(1/200) ≤ x) : 0 ≤ round2 x := by
  rw [round2]
  have : (0 : ℤ) ≤ rhe (x * 100) := rhe_nonneg (by linarith)
  have : (0 : ℚ) ≤ (rhe (x * 100) : ℚ) := by exact_mod_cast this
  positivity

theorem round2_le (x : ℚ) : round2 x ≤ x + 1/200 := by
  rw [round2]
  have := rhe_le (x * 100)
  rw [div_le_iff₀ (by norm_num : (0:ℚ) < 100)]
  linarith

theorem le_round2 (x : ℚ) : x - 1/200 ≤ round2 x := by
  rw [round2]
  have := le_rhe (x * 100)
  rw [le_div_iff₀ (by norm_num : (0:ℚ) < 100)]
  linarith

theorem round2_mono {x y : ℚ} (h : x ≤ y) : round2 x ≤ round2 y := by
  rw [round2, round2]
  have : rhe (x * 100) ≤ rhe (y * 100) := rhe_mono (by linarith)
  have h' : ((rhe (x * 100) : ℤ) : ℚ) ≤ ((rhe (y * 100) : ℤ) : ℚ) := by exact_mod_cast this
  linarith

/-! ## Claim C4 — fee arithmetic -/

/-- C4 (counterexample): the claim asserts `remainder ≤ g` for every
`g ≥ 0` and rate in `[0,1]`, but at the source's own rate 0.10 and gross
amount g = 0.006 the code computes fee = round(0.0006, 2) = 0 and
remainder = round(0.006, 2) = 0.01 > g. -/
theorem C4_fee_remainder_exceeds_gross :
    CheckOutService.calculate_fee (3/500) (1/10) = (0, 1/100) ∧
      ¬ (CheckOutService.calculate_fee (3/500) (1/10)).2 ≤ 3/500 := by
  constructor
  · with_unfolding_all decide
  · with_unfolding_all decide

/-- C4 (amended): for `g ≥ 0` and rate `r ∈ [0,1]`, `calculate_fee g r`
returns `fee = round(g*r, 2)` and `remainder = round(g - fee, 2)`, both
nonnegative, with `remainder ≤ round(g, 2)` (the bound `remainder ≤ g`
itself fails by at most half a cent of rounding) and
`fee + remainder = round(g, 2)` within one minor unit. -/
theorem C4_calculate_fee_props (g r : ℚ) (hg : 0 ≤ g) (hr0 : 0 ≤ r) (hr1 : r ≤ 1) :
    (CheckOutService.calculate_fee g r).1 = round2 (g * r) ∧
    (CheckOutService.calculate_fee g r).2 = round2 (g - round2 (g * r)) ∧
    0 ≤ (CheckOutService.calculate_fee g r).1 ∧
    0 ≤ (CheckOutService.calculate_fee g r).2 ∧
    (CheckOutService.calculate_fee g r).2 ≤ round2 g ∧
    |(CheckOutService.calculate_fee g r).1 + (CheckOutService.calculate_fee g r).2 - round2 g|
      ≤ 1/100 := by
  have hgr0 : 0 ≤ g * r := mul_nonneg hg hr0
  have hgr_le : g * r ≤ g := mul_le_of_le_one_right hg hr1
  set fee := round2 (g * r) with hfee
  have hfee0 : 0 ≤ fee := round2_nonneg (by linarith)
  have hfee_le : fee ≤ g * r + 1/200 := round2_le (g * r)
  have hrem0 : 0 ≤ round2 (g - fee) := round2_nonneg (by linarith)
  have hrem_le : round2 (g - fee) ≤ round2 g := round2_mono (by linarith)
  have hrem_lb : g - fee - 1/200 ≤ round2 (g - fee) := le_round2 (g - fee)
  have hrem_ub : round2 (g - fee) ≤ g - fee + 1/200 := round2_le (g - fee)
  have hg_lb : g - 1/200 ≤ round2 g := le_round2 g
  have hg_ub : round2 g ≤ g + 1/200 := round2_le g
  refine ⟨rfl, rfl, hfee0, hrem0, hrem_le, ?_⟩
  rw [abs_le]
  constructor
  · simp only [CheckOutService.calculate_fee, ← hfee]
    linarith
  · simp only [CheckOutService.calculate_fee, ← hfee]
    linarith

/-- C4 witness: the amended properties at the spec's own scenario
(gross 110.00, rate 0.10). -/
theorem C4_calculate_fee_props_witness :
    (0 ≤ (110:ℚ)) ∧ (0 ≤ (1/10:ℚ)) ∧ ((1/10:ℚ) ≤ 1) ∧
    ((CheckOutService.calculate_fee 110 (1/10)).1 = round2 (110 * (1/10)) ∧
     (CheckOutService.calculate_fee 110 (1/10)).2 = round2 (110 - round2 (110 * (1/10))) ∧
     0 ≤ (CheckOutService.calculate_fee 110 (1/10)).1 ∧
     0 ≤ (CheckOutService.calculate_fee 110 (1/10)).2 ∧
     (CheckOutService.calculate_fee 110 (1/10)).2 ≤ round2 110 ∧
     |(CheckOutService.calculate_fee 110 (1/10)).1 + (CheckOutService.calculate_fee 110 (1/10)).2
        - round2 110| ≤ 1/100) :=
  ⟨by norm_num, by norm_num, by norm_num,
    C4_calculate_fee_props 110 (1/10) (by norm_num) (by norm_num) (by norm_num)⟩

/-! ## Store-manipulation helper lemmas -/

theorem mem_setFirst {α} {p : α → Bool} {a x : α} {l : List α}
    (hx : x ∈ setFirst p a l) : x = a ∨ x ∈ l := by
  induction l with
  | nil => simp [setFirst] at hx
  | cons y ys ih =>
      rw [setFirst] at hx
      split at hx
      · rcases List.mem_cons.mp hx with h | h
        · exact Or.inl h
        · exact Or.inr (List.mem_cons_of_mem _ h)
      · rcases List.mem_cons.mp hx with h | h
        · exact Or.inr (h ▸ List.mem_cons_self _ _)
        · rcases ih h with h' | h'
          · exact Or.inl h'
          · exact Or.inr (List.mem_cons_of_mem _ h')

theorem findCart_mem {db : DB} {uid : Nat} {c : Cart} (h : db.findCart uid = some c) :
    c ∈ db.carts :=
  List.mem_of_find?_eq_some h

/-- `get_or_create_cart` returns a store whose carts all satisfy any
property that held before and holds of a fresh empty cart; the returned
cart satisfies it too; no other collection changes. -/
theorem goc_inv {db : DB} {uid now : Nat} {db1 : DB} {cart : Cart} {P : Cart → Prop}
    (h : ∀ c ∈ db.carts, P c)
    (hemp : ∀ u n, P { user_id := u, items := [], created_at := n, updated_at := n })
    (heq : CartService.get_or_create_cart db uid now = (db1, cart)) :
    (∀ c ∈ db1.carts, P c) ∧ P cart ∧ db1.products = db.products ∧
      db1.users = db.users ∧ db1.orders = db.orders := by
  rw [CartService.get_or_create_cart] at heq
  cases hf : db.findCart uid <;> rw [hf] at heq
  · injection heq with h1 h2
    subst h1
    subst h2
    refine ⟨?_, hemp uid now, rfl, rfl, rfl⟩
    intro c hc
    rcases List.mem_append.mp hc with hc | hc
    · exact h c hc
    · rcases List.mem_singleton.mp hc with rfl
      exact hemp uid now
  · injection heq with h1 h2
    subst h1
    subst h2
    exact ⟨h, h _ (findCart_mem hf), rfl, rfl, rfl⟩

theorem saveCart_inv {db : DB} {c : Cart} {P : Cart → Prop}
    (h : ∀ c0 ∈ db.carts, P c0) (hc : P c) :
    ∀ c0 ∈ (db.saveCart c).carts, P c0 := by
  intro c0 hc0
  rcases mem_setFirst hc0 with rfl | hmem
  · exact hc
  · exact h c0 hmem

theorem mem_updateFirstItem {pid : Nat} {f : CartItem → CartItem} {l : List CartItem}
    {x : CartItem} (hx : x ∈ CartService.updateFirstItem pid f l) :
    x ∈ l ∨ ∃ it ∈ l, x = f it := by
  induction l with
  | nil => simp [CartService.updateFirstItem] at hx
  | cons y ys ih =>
      rw [CartService.updateFirstItem] at hx
      split at hx
      · rcases List.mem_cons.mp hx with h | h
        · exact Or.inr ⟨y, List.mem_cons_self _ _, h⟩
        · exact Or.inl (List.mem_cons_of_mem _ h)
      · rcases List.mem_cons.mp hx with h | h
        · exact Or.inl (h ▸ List.mem_cons_self _ _)
        · rcases ih h with h' | ⟨it, hit, hx'⟩
          · exact Or.inl (List.mem_cons_of_mem _ h')
          · exact Or.inr ⟨it, List.mem_cons_of_mem _ hit, hx'⟩

/-! ## Claim C6 — positive cart quantities -/

theorem add_item_pos {db : DB} {uid pid : Nat} {q : Int} {now : Nat} {db' : DB} {c' : Cart}
    (h : db.cartsPos) (hq : 0 < q)
    (heq : CartService.add_item db uid pid q now = .ok (db', c')) :
    db'.cartsPos ∧ cartPos c' := by
  unfold CartService.add_item at heq
  split at heq
  · exact absurd heq (by simp)
  · split at heq
    · exact absurd heq (by simp)
    · rename_i product hp hs
      split at heq
      rename_i db1 cart hgoc
      obtain ⟨hdb1, hcart, -, -, -⟩ := goc_inv h (by intro u n it hit; simp at hit) hgoc
      split at heq
      · rename_i it0 hfind
        injection heq with heq'
        injection heq' with h1 h2
        subst h1
        subst h2
        have hc1 : cartPos { cart with
            items := CartService.updateFirstItem pid
              (fun it => { it with quantity := it.quantity + q }) cart.items,
            updated_at := now } := by
          intro it hit
          rcases mem_updateFirstItem hit with hmem | ⟨it1, hit1, rfl⟩
          · exact hcart it hmem
          · have := hcart it1 hit1
            simp only []
            omega
        exact ⟨saveCart_inv hdb1 hc1, hc1⟩
      · split at heq
        · exact absurd heq (by simp)
        · injection heq with heq'
          injection heq' with h1 h2
          subst h1
          subst h2
          have hc1 : cartPos { cart with
              items := cart.items ++ [{ product_id := pid, quantity := q }],
              updated_at := now } := by
            intro it hit
            rcases List.mem_append.mp hit with hmem | hmem
            · exact hcart it hmem
            · rcases List.mem_singleton.mp hmem with rfl
              exact hq
          exact ⟨saveCart_inv hdb1 hc1, hc1⟩

theorem remove_item_pos {db : DB} {uid pid : Nat} {now : Nat}
    (h : db.cartsPos) :
    (CartService.remove_item db uid pid now).1.cartsPos ∧
      cartPos (CartService.remove_item db uid pid now).2 := by
  unfold CartService.remove_item
  rcases hgoc : CartService.get_or_create_cart db uid now with ⟨db1, cart⟩
  obtain ⟨hdb1, hcart, -, -, -⟩ := goc_inv h (by intro u n it hit; simp at hit) hgoc
  have hc1 : cartPos { cart with
      items := cart.items.filter (fun it => it.product_id ≠ pid),
      updated_at := now } := by
    intro it hit
    exact hcart it (List.mem_of_mem_filter hit)
  exact ⟨saveCart_inv hdb1 hc1, hc1⟩

theorem update_item_quantity_pos {db : DB} {uid pid : Nat} {q : Int} {now : Nat}
    {db' : DB} {c' : Cart} (h : db.cartsPos)
    (heq : CartService.update_item_quantity db uid pid q now = .ok (db', c')) :
    db'.cartsPos ∧ cartPos c' := by
  unfold CartService.update_item_quantity at heq
  split at heq
  · injection heq with heq'
    have h1 : db' = (CartService.remove_item db uid pid now).1 := by rw [heq']
    have h2 : c' = (CartService.remove_item db uid pid now).2 := by rw [heq']
    rw [h1, h2]
    exact remove_item_pos h
  · rename_i hq
    push_neg at hq
    split at heq
    rename_i db1 cart hgoc
    obtain ⟨hdb1, hcart, -, -, -⟩ := goc_inv h (by intro u n it hit; simp at hit) hgoc
    split at heq
    · exact absurd heq (by simp)
    · injection heq with heq'
      injection heq' with h1 h2
      subst h1
      subst h2
      have hc1 : cartPos { cart with
          items := CartService.updateFirstItem pid (fun it => { it with quantity := q }) cart.items,
          updated_at := now } := by
        intro it hit
        rcases mem_updateFirstItem hit with hmem | ⟨it1, hit1, rfl⟩
        · exact hcart it hmem
        · simpa using hq
      exact ⟨saveCart_inv hdb1 hc1, hc1⟩

theorem clear_cart_pos {db : DB} {uid now : Nat} (h : db.cartsPos) :
    (CartService.clear_cart db uid now).1.cartsPos ∧
      cartPos (CartService.clear_cart db uid now).2 := by
  unfold CartService.clear_cart
  rcases hgoc : CartService.get_or_create_cart db uid now with ⟨db1, cart⟩
  obtain ⟨hdb1, hcart, -, -, -⟩ := goc_inv h (by intro u n it hit; simp at hit) hgoc
  have hc1 : cartPos { cart with items := [], updated_at := now } := by
    intro it hit
    simp at hit
  exact ⟨saveCart_inv hdb1 hc1, hc1⟩

/-- C6 (counterexample): the claim says every cart-mutating operation —
`add_item` included — keeps all stored quantities positive and removes any
line driven to zero or below.  But `add_item` with a negative quantity on
a product already in the cart mutates the line in place (pydantic's
`gt=0` is not re-checked on assignment): starting from a cart holding
3 × product 10, `add_item(user 1, product 10, quantity −5)` leaves the
line stored with quantity −2. -/
theorem C6_add_item_keeps_nonpositive_line :
    (CartService.add_item dbCart 1 10 (-5) 7).map (fun r => r.2.items)
      = .ok [{ product_id := 10, quantity := -2 }] ∧
    ¬ (0 < (-2 : Int)) := by
  constructor
  · with_unfolding_all decide
  · decide

/-- C6 (amended): `update_item_quantity`, `remove_item` and `clear_cart`
preserve positivity of all stored quantities unconditionally, a quantity
update to zero or below removes the line instead of storing it, and
`add_item` preserves positivity when the quantity argument is positive
(which the HTTP request schema `CartAddItemRequest` enforces); only a
direct `add_item` call with a non-positive quantity on an existing line
escapes the invariant. -/
theorem C6_cart_ops_preserve_positive_quantities (db : DB) (h : db.cartsPos) :
    (∀ uid pid q now db' c', 0 < q →
        CartService.add_item db uid pid q now = .ok (db', c') →
        db'.cartsPos ∧ cartPos c') ∧
    (∀ uid pid q now db' c',
        CartService.update_item_quantity db uid pid q now = .ok (db', c') →
        db'.cartsPos ∧ cartPos c') ∧
    (∀ uid pid now, (CartService.remove_item db uid pid now).1.cartsPos ∧
        cartPos (CartService.remove_item db uid pid now).2) ∧
    (∀ uid now, (CartService.clear_cart db uid now).1.cartsPos ∧
        cartPos (CartService.clear_cart db uid now).2) ∧
    (∀ uid pid q now, q ≤ 0 →
        CartService.update_item_quantity db uid pid q now
          = .ok (CartService.remove_item db uid pid now)) ∧
    (∀ uid pid now, ∀ it ∈ (CartService.remove_item db uid pid now).2.items,
        it.product_id ≠ pid) := by
  refine ⟨?_, ?_, ?_, ?_, ?_, ?_⟩
  · intro uid pid q now db' c' hq heq
    exact add_item_pos h hq heq
  · intro uid pid q now db' c' heq
    exact update_item_quantity_pos h heq
  · intro uid pid now
    exact remove_item_pos h
  · intro uid now
    exact clear_cart_pos h
  · intro uid pid q now hq
    rw [CartService.update_item_quantity, if_pos hq]
  · intro uid pid now it hit
    have := List.of_mem_filter hit
    simpa using this

/-- C6 witness: the amended statement applied to the concrete store
`dbCart`, whose one cart holds 3 × product 10. -/
theorem C6_cart_ops_preserve_positive_quantities_witness :
    dbCart.cartsPos ∧
    ((CartService.remove_item dbCart 1 10 7).1.cartsPos ∧
      cartPos (CartService.remove_item dbCart 1 10 7).2) :=
  ⟨by simp only [DB.cartsPos, cartPos]; decide,
    (C6_cart_ops_preserve_positive_quantities dbCart
      (by simp only [DB.cartsPos, cartPos]; decide)).2.2.1 1 10 7⟩

/-! ## Claim C10 — at most one cart line per product -/

theorem updateFirstItem_map_id (pid : Nat) (f : CartItem → CartItem) (l : List CartItem)
    (hf : ∀ it, (f it).product_id = it.product_id) :
    (CartService.updateFirstItem pid f l).map (fun it => it.product_id)
      = l.map (fun it => it.product_id) := by
  induction l with
  | nil => rfl
  | cons y ys ih =>
      rw [CartService.updateFirstItem]
      split
      · simp [hf]
      · simp only [List.map_cons, ih]

theorem updateFirstItem_quantity_sum {pid : Nat} {q : Int} {l : List CartItem}
    (hex : l.any (fun it => it.product_id == pid)) :
    (((CartService.updateFirstItem pid (fun it => { it with quantity := it.quantity + q }) l).filter
        (fun it => it.product_id == pid)).map (fun it => it.quantity)).sum
      = ((l.filter (fun it => it.product_id == pid)).map (fun it => it.quantity)).sum + q := by
  induction l with
  | nil => simp at hex
  | cons y ys ih =>
      rw [CartService.updateFirstItem]
      by_cases hy : (y.product_id == pid) = true
      · rw [if_pos hy]
        simp only [List.filter_cons, List.map_cons, List.sum_cons, hy, if_true]
        ring
      · have hy0 : (y.product_id == pid) = false := by simpa using hy
        rw [if_neg (by simp [hy0])]
        simp only [List.filter_cons, hy0, Bool.false_eq_true, if_false]
        apply ih
        rcases List.any_eq_true.mp hex with ⟨x, hx, hpx⟩
        rcases List.mem_cons.mp hx with rfl | hx'
        · rw [hpx] at hy0
          cases hy0
        · exact List.any_eq_true.mpr ⟨x, hx', hpx⟩

theorem add_item_nodup {db : DB} {uid pid : Nat} {q : Int} {now : Nat} {db' : DB} {c' : Cart}
    (h : db.cartsNodup)
    (heq : CartService.add_item db uid pid q now = .ok (db', c')) :
    db'.cartsNodup ∧ cartIdsNodup c' := by
  unfold CartService.add_item at heq
  split at heq
  · exact absurd heq (by simp)
  · split at heq
    · exact absurd heq (by simp)
    · split at heq
      rename_i db1 cart hgoc
      obtain ⟨hdb1, hcart, -, -, -⟩ := goc_inv h (by intro u n; simp [cartIdsNodup]) hgoc
      split at heq
      · rename_i it0 hfind
        injection heq with heq'
        injection heq' with h1 h2
        subst h1
        subst h2
        have hc1 : cartIdsNodup { cart with
            items := CartService.updateFirstItem pid
              (fun it => { it with quantity := it.quantity + q }) cart.items,
            updated_at := now } := by
          unfold cartIdsNodup
          simp only []
          rw [updateFirstItem_map_id pid (fun it => { it with quantity := it.quantity + q })
            cart.items (fun it => rfl)]
          exact hcart
        exact ⟨saveCart_inv hdb1 hc1, hc1⟩
      · split at heq
        · exact absurd heq (by simp)
        · rename_i hfind hq
          injection heq with heq'
          injection heq' with h1 h2
          subst h1
          subst h2
          have hpid : pid ∉ cart.items.map (fun it => it.product_id) := by
            intro hc
            rcases List.mem_map.mp hc with ⟨it, hit, hid⟩
            have := List.find?_eq_none.mp hfind it hit
            simp [hid] at this
          have hc1 : cartIdsNodup { cart with
              items := cart.items ++ [{ product_id := pid, quantity := q }],
              updated_at := now } := by
            unfold cartIdsNodup
            simp only [List.map_append, List.map_cons, List.map_nil]
            rw [List.nodup_append]
            exact ⟨hcart, List.nodup_singleton _,
              fun a ha hb => hpid ((List.mem_singleton.mp hb) ▸ ha)⟩
          exact ⟨saveCart_inv hdb1 hc1, hc1⟩

theorem remove_item_nodup {db : DB} {uid pid : Nat} {now : Nat} (h : db.cartsNodup) :
    (CartService.remove_item db uid pid now).1.cartsNodup ∧
      cartIdsNodup (CartService.remove_item db uid pid now).2 := by
  unfold CartService.remove_item
  rcases hgoc : CartService.get_or_create_cart db uid now with ⟨db1, cart⟩
  obtain ⟨hdb1, hcart, -, -, -⟩ := goc_inv h (by intro u n; simp [cartIdsNodup]) hgoc
  have hc1 : cartIdsNodup { cart with
      items := cart.items.filter (fun it => it.product_id ≠ pid),
      updated_at := now } := by
    unfold cartIdsNodup
    exact List.Nodup.sublist (List.Sublist.map _ (List.filter_sublist _)) hcart
  exact ⟨saveCart_inv hdb1 hc1, hc1⟩

theorem update_item_quantity_nodup {db : DB} {uid pid : Nat} {q : Int} {now : Nat}
    {db' : DB} {c' : Cart} (h : db.cartsNodup)
    (heq : CartService.update_item_quantity db uid pid q now = .ok (db', c')) :
    db'.cartsNodup ∧ cartIdsNodup c' := by
  unfold CartService.update_item_quantity at heq
  split at heq
  · injection heq with heq'
    have h1 : db' = (CartService.remove_item db uid pid now).1 := by rw [heq']
    have h2 : c' = (CartService.remove_item db uid pid now).2 := by rw [heq']
    rw [h1, h2]
    exact remove_item_nodup h
  · split at heq
    rename_i db1 cart hgoc
    obtain ⟨hdb1, hcart, -, -, -⟩ := goc_inv h (by intro u n; simp [cartIdsNodup]) hgoc
    split at heq
    · exact absurd heq (by simp)
    · injection heq with heq'
      injection heq' with h1 h2
      subst h1
      subst h2
      have hc1 : cartIdsNodup { cart with
          items := CartService.updateFirstItem pid (fun it => { it with quantity := q }) cart.items,
          updated_at := now } := by
        unfold cartIdsNodup
        simp only []
        rw [updateFirstItem_map_id pid (fun it => { it with quantity := q })
          cart.items (fun it => rfl)]
        exact hcart
      exact ⟨saveCart_inv hdb1 hc1, hc1⟩

theorem clear_cart_nodup {db : DB} {uid now : Nat} (h : db.cartsNodup) :
    (CartService.clear_cart db uid now).1.cartsNodup ∧
      cartIdsNodup (CartService.clear_cart db uid now).2 := by
  unfold CartService.clear_cart
  rcases hgoc : CartService.get_or_create_cart db uid now with ⟨db1, cart⟩
  obtain ⟨hdb1, hcart, -, -, -⟩ := goc_inv h (by intro u n; simp [cartIdsNodup]) hgoc
  have hc1 : cartIdsNodup { cart with items := [], updated_at := now } := by
    simp [cartIdsNodup]
  exact ⟨saveCart_inv hdb1 hc1, hc1⟩

theorem add_item_merges {db : DB} {uid pid : Nat} {q : Int} {now : Nat} {db' : DB} {c' : Cart}
    (heq : CartService.add_item db uid pid q now = .ok (db', c'))
    (hex : (CartService.get_or_create_cart db uid now).2.items.any
      (fun it => it.product_id == pid)) :
    c'.items.map (fun it => it.product_id)
      = (CartService.get_or_create_cart db uid now).2.items.map (fun it => it.product_id) ∧
    quantityOf c' pid = quantityOf (CartService.get_or_create_cart db uid now).2 pid + q := by
  unfold CartService.add_item at heq
  split at heq
  · exact absurd heq (by simp)
  · split at heq
    · exact absurd heq (by simp)
    · split at heq
      rename_i db1 cart hgoc
      rw [hgoc]
      split at heq
      · rename_i it0 hfind
        injection heq with heq'
        injection heq' with h1 h2
        subst h2
        rw [hgoc] at hex
        constructor
        · exact updateFirstItem_map_id pid
            (fun it => { it with quantity := it.quantity + q }) cart.items (fun it => rfl)
        · unfold quantityOf
          exact updateFirstItem_quantity_sum hex
      · rename_i hfind
        rw [hgoc] at hex
        rcases List.any_eq_true.mp hex with ⟨x, hx, hpx⟩
        have := List.find?_eq_none.mp hfind x hx
        exact absurd hpx (by simpa using this)

/-- C10: every cart operation preserves at-most-one-line-per-product, and
`add_item` on a product already in the cart keeps the line set unchanged
and adds the given quantity onto the existing line rather than appending
a duplicate. -/
theorem C10_cart_ops_one_line_per_product (db : DB) (h : db.cartsNodup) :
    (∀ uid pid q now db' c',
        CartService.add_item db uid pid q now = .ok (db', c') →
        db'.cartsNodup ∧ cartIdsNodup c') ∧
    (∀ uid pid q now db' c',
        CartService.update_item_quantity db uid pid q now = .ok (db', c') →
        db'.cartsNodup ∧ cartIdsNodup c') ∧
    (∀ uid pid now, (CartService.remove_item db uid pid now).1.cartsNodup ∧
        cartIdsNodup (CartService.remove_item db uid pid now).2) ∧
    (∀ uid now, (CartService.clear_cart db uid now).1.cartsNodup ∧
        cartIdsNodup (CartService.clear_cart db uid now).2) ∧
    (∀ uid pid q now db' c',
        CartService.add_item db uid pid q now = .ok (db', c') →
        (CartService.get_or_create_cart db uid now).2.items.any
          (fun it => it.product_id == pid) →
        c'.items.map (fun it => it.product_id)
          = (CartService.get_or_create_cart db uid now).2.items.map (fun it => it.product_id) ∧
        quantityOf c' pid
          = quantityOf (CartService.get_or_create_cart db uid now).2 pid + q) := by
  refine ⟨?_, ?_, ?_, ?_, ?_⟩
  · intro uid pid q now db' c' heq
    exact add_item_nodup h heq
  · intro uid pid q now db' c' heq
    exact update_item_quantity_nodup h heq
  · intro uid pid now
    exact remove_item_nodup h
  · intro uid now
    exact clear_cart_nodup h
  · intro uid pid q now db' c' heq hex
    exact add_item_merges heq hex

/-- C10 witness: at `dbCart` (a cart holding 3 × product 10), adding 4
more of product 10 merges into the existing line — the stored cart
becomes the single line 7 × product 10. -/
theorem C10_cart_ops_one_line_per_product_witness :
    dbCart.cartsNodup ∧
    ((CartService.clear_cart dbCart 1 7).1.cartsNodup ∧
      cartIdsNodup (CartService.clear_cart dbCart 1 7).2) ∧
    (CartService.add_item dbCart 1 10 4 7).map (fun r => r.2.items)
      = .ok [{ product_id := 10, quantity := 7 }] :=
  ⟨by simp only [DB.cartsNodup, cartIdsNodup]; decide,
    (C10_cart_ops_one_line_per_product dbCart
      (by simp only [DB.cartsNodup, cartIdsNodup]; decide)).2.2.2.1 1 7,
    by with_unfolding_all decide⟩

/-! ## Claim C2 — grouping partition -/

theorem hasKey_append_self (gs : List (CartService.GroupKey × CartService.CartGroup))
    (key : CartService.GroupKey) (g : CartService.CartGroup) :
    CartService.hasKey (gs ++ [(key, g)]) key = true := by
  simp [CartService.hasKey]

theorem linesOfK_append_init (gs : List (CartService.GroupKey × CartService.CartGroup))
    (key : CartService.GroupKey) (p : Product) (seller : User) :
    linesOfK (gs ++ [(key, CartService.initGroup p seller)]) = linesOfK gs := by
  simp [linesOfK, CartService.initGroup]

theorem appendToKey_lines {gs : List (CartService.GroupKey × CartService.CartGroup)}
    {key : CartService.GroupKey} {gi : CartService.GroupItem} {t : ℚ}
    (h : CartService.hasKey gs key = true) :
    (linesOfK (CartService.appendToKey key gi t gs)).Perm
      ((gi.product_id, gi.quantity) :: linesOfK gs) := by
  induction gs with
  | nil => simp [CartService.hasKey] at h
  | cons kg rest ih =>
      obtain ⟨k, g⟩ := kg
      rw [CartService.appendToKey]
      by_cases hk : k = key
      · rw [if_pos hk]
        show (linesOfK _).Perm _
        simp only [linesOfK, List.map_cons, List.flatten_cons, List.map_append]
        rw [List.append_assoc]
        simp only [List.map_cons, List.map_nil, List.singleton_append]
        exact List.perm_middle
      · rw [if_neg hk]
        have h' : CartService.hasKey rest key = true := by
          simp only [CartService.hasKey, List.any_cons] at h
          rcases Bool.or_eq_true_iff.mp h with h1 | h1
          · exact absurd (of_decide_eq_true h1) hk
          · exact h1
        have ihh := ih h'
        show (linesOfK _).Perm _
        simp only [linesOfK, List.map_cons, List.flatten_cons] at ihh ⊢
        refine (ihh.append_left _).trans ?_
        exact List.perm_middle

theorem groupStep_lines (db : DB) (gs : List (CartService.GroupKey × CartService.CartGroup))
    (item : CartItem) :
    (linesOfK (CartService.groupStep db gs item)).Perm
      (if keepLine db item then (item.product_id, item.quantity) :: linesOfK gs
       else linesOfK gs) := by
  cases hp : db.getProduct item.product_id with
  | none => simp [CartService.groupStep, keepLine, hp]
  | some p =>
      by_cases hs : p.status = "published"
      · cases hu : db.getUser p.seller_id with
        | none =>
            have hkeep : keepLine db item = false := by
              simp [keepLine, hp, hu]
            rw [hkeep]
            simp only [Bool.false_eq_true, if_false]
            simp [CartService.groupStep, hp, hs, hu]
        | some seller =>
            have hkeep : keepLine db item = true := by
              simp [keepLine, hp, hs, hu]
            rw [hkeep]
            simp only [if_true]
            simp only [CartService.groupStep, hp, hs, hu]
            rw [if_neg (by simp)]
            by_cases hk : CartService.hasKey gs (p.seller_id, p.is_recurring) = true
            · rw [if_pos hk]
              exact appendToKey_lines hk
            · rw [if_neg hk]
              refine (appendToKey_lines (hasKey_append_self gs _ _)).trans ?_
              rw [linesOfK_append_init]
      · have hkeep : keepLine db item = false := by
          simp [keepLine, hp, hs]
        rw [hkeep]
        simp only [Bool.false_eq_true, if_false]
        simp [CartService.groupStep, hp, hs]

theorem foldl_groupStep_lines (db : DB) (items : List CartItem) :
    ∀ gs, (linesOfK (items.foldl (CartService.groupStep db) gs)).Perm
      (linesOfK gs ++ (items.filter (keepLine db)).map (fun it => (it.product_id, it.quantity))) := by
  induction items with
  | nil => intro gs; simp
  | cons it rest ih =>
      intro gs
      rw [List.foldl_cons]
      refine (ih (CartService.groupStep db gs it)).trans ?_
      by_cases hk : keepLine db it = true
      · have h1 := groupStep_lines db gs it
        rw [if_pos hk] at h1
        have hfil : (it :: rest).filter (keepLine db) = it :: rest.filter (keepLine db) := by
          simp [List.filter_cons, hk]
        rw [hfil, List.map_cons]
        refine (h1.append_right _).trans ?_
        rw [List.cons_append]
        exact List.perm_middle.symm
      · have h1 := groupStep_lines db gs it
        rw [if_neg hk] at h1
        have hk0 : keepLine db it = false := by
          simpa using hk
        have hfil : (it :: rest).filter (keepLine db) = rest.filter (keepLine db) := by
          simp [List.filter_cons, hk0]
        rw [hfil]
        exact h1.append_right _

theorem appendToKey_inv {gs : List (CartService.GroupKey × CartService.CartGroup)}
    {key : CartService.GroupKey} {gi : CartService.GroupItem} {t : ℚ}
    (h : accInv gs)
    (hsell : gi.product.seller_id = key.1) (hrec : gi.product.is_recurring = key.2)
    (ht : t = gi.product.price * (gi.quantity : ℚ)) :
    accInv (CartService.appendToKey key gi t gs) := by
  induction gs with
  | nil => intro kg hkg; simp [CartService.appendToKey] at hkg
  | cons kg0 rest ih =>
      obtain ⟨k, g⟩ := kg0
      have hhead := h (k, g) (List.mem_cons_self _ _)
      have hrest : accInv rest := fun kg hkg => h kg (List.mem_cons_of_mem _ hkg)
      rw [CartService.appendToKey]
      by_cases hk : k = key
      · rw [if_pos hk]
        intro kg hkg
        rcases List.mem_cons.mp hkg with rfl | hkg'
        · refine ⟨hhead.1, hhead.2.1, ?_, ?_⟩
          · intro gi' hgi'
            rcases List.mem_append.mp hgi' with hgi' | hgi'
            · exact hhead.2.2.1 gi' hgi'
            · rcases List.mem_singleton.mp hgi' with rfl
              rw [← hk] at hsell hrec
              exact ⟨hsell, hrec⟩
          · simp only [List.map_append, List.sum_append, List.map_cons, List.map_nil,
              List.sum_cons, List.sum_nil]
            rw [hhead.2.2.2, ht]
            ring
        · exact hrest kg hkg'
      · rw [if_neg hk]
        intro kg hkg
        rcases List.mem_cons.mp hkg with rfl | hkg'
        · exact hhead
        · exact ih hrest kg hkg'

theorem groupStep_inv (db : DB) {gs : List (CartService.GroupKey × CartService.CartGroup)}
    (h : accInv gs) (item : CartItem) :
    accInv (CartService.groupStep db gs item) := by
  cases hp : db.getProduct item.product_id with
  | none => simpa [CartService.groupStep, hp] using h
  | some p =>
      by_cases hs : p.status = "published"
      · cases hu : db.getUser p.seller_id with
        | none => simpa [CartService.groupStep, hp, hs, hu] using h
        | some seller =>
            have hstep : CartService.groupStep db gs item
                = CartService.appendToKey (p.seller_id, p.is_recurring)
                    { product_id := item.product_id, quantity := item.quantity, product := p,
                      item_total := round2 (p.price * (item.quantity : ℚ)) }
                    (p.price * (item.quantity : ℚ))
                    (if CartService.hasKey gs (p.seller_id, p.is_recurring) = true then gs
                     else gs ++ [((p.seller_id, p.is_recurring), CartService.initGroup p seller)]) := by
              simp [CartService.groupStep, hp, hs, hu]
            rw [hstep]
            have h1 : accInv (if CartService.hasKey gs (p.seller_id, p.is_recurring) = true then gs
                else gs ++ [((p.seller_id, p.is_recurring), CartService.initGroup p seller)]) := by
              split
              · exact h
              · intro kg hkg
                rcases List.mem_append.mp hkg with hkg' | hkg'
                · exact h kg hkg'
                · rcases List.mem_singleton.mp hkg' with rfl
                  refine ⟨rfl, rfl, ?_, ?_⟩
                  · intro gi hgi
                    simp [CartService.initGroup] at hgi
                  · simp [CartService.initGroup]
            exact appendToKey_inv h1 rfl rfl rfl
      · simpa [CartService.groupStep, hp, hs] using h

theorem foldl_groupStep_inv (db : DB) (items : List CartItem) :
    ∀ gs, accInv gs → accInv (items.foldl (CartService.groupStep db) gs) := by
  induction items with
  | nil => intro gs h; exact h
  | cons it rest ih =>
      intro gs h
      rw [List.foldl_cons]
      exact ih _ (groupStep_inv db h it)

theorem linesOf_stripKeys (gs : List (CartService.GroupKey × CartService.CartGroup)) :
    linesOf (gs.map (fun kg =>
      { kg.2 with group_total_price := round2 kg.2.group_total_price })) = linesOfK gs := by
  rw [linesOf, linesOfK, List.map_map]
  rfl

/-- C2 (counterexample): in `dbCartOffline` the seller of product 10 has
no connected account, yet the cart line 3 × product 10 is placed in a
group — the claim says such a line appears in no group. -/
theorem C2_line_without_connected_seller_grouped :
    linesOf (CartService.get_grouped_cart_for_checkout dbCartOffline 1 0).2 = [(10, 3)] ∧
    keepLineSpec dbCartOffline { product_id := 10, quantity := 3 } = false := by
  constructor
  · with_unfolding_all decide
  · with_unfolding_all decide

/-- C2 (amended): every non-skipped cart line lands in exactly one group
(the multiset of grouped lines equals the multiset of cart lines whose
product exists, is published, and whose **seller exists** — the grouping
loop does not consult the seller's connected account; onboarding is
enforced later, at session creation); each group's lines all carry that
group's seller and recurring flag, and each group's total is the rounded
sum of exactly its own lines' price × quantity, so skipped lines
contribute to no group and no total. -/
theorem C2_grouping_partition (db : DB) (uid now : Nat) :
    (linesOf (CartService.get_grouped_cart_for_checkout db uid now).2).Perm
      (((CartService.get_or_create_cart db uid now).2.items.filter (keepLine db)).map
        (fun it => (it.product_id, it.quantity))) ∧
    (∀ g ∈ (CartService.get_grouped_cart_for_checkout db uid now).2, ∀ gi ∈ g.items,
      gi.product.seller_id = g.seller_id ∧ gi.product.is_recurring = g.is_recurring) ∧
    (∀ g ∈ (CartService.get_grouped_cart_for_checkout db uid now).2,
      g.group_total_price
        = round2 ((g.items.map (fun gi => gi.product.price * (gi.quantity : ℚ))).sum)) := by
  rcases hgoc : CartService.get_or_create_cart db uid now with ⟨db1, cart⟩
  have hout : (CartService.get_grouped_cart_for_checkout db uid now).2
      = (cart.items.foldl (CartService.groupStep db) []).map
          (fun kg => { kg.2 with group_total_price := round2 kg.2.group_total_price }) := by
    rw [CartService.get_grouped_cart_for_checkout, hgoc]
  have hinv : accInv (cart.items.foldl (CartService.groupStep db) []) :=
    foldl_groupStep_inv db cart.items [] (by intro kg hkg; simp at hkg)
  refine ⟨?_, ?_, ?_⟩
  · rw [hout, linesOf_stripKeys]
    have := foldl_groupStep_lines db cart.items []
    simpa [linesOfK] using this
  · rw [hout]
    intro g hg gi hgi
    rcases List.mem_map.mp hg with ⟨kg, hkg, rfl⟩
    have hkinv := hinv kg hkg
    have hgi' : gi ∈ kg.2.items := hgi
    refine ⟨?_, ?_⟩
    · rw [(hkinv.2.2.1 gi hgi').1]
      exact hkinv.1.symm
    · rw [(hkinv.2.2.1 gi hgi').2]
      exact hkinv.2.1.symm
  · rw [hout]
    intro g hg
    rcases List.mem_map.mp hg with ⟨kg, hkg, rfl⟩
    have hkinv := hinv kg hkg
    show round2 kg.2.group_total_price = _
    rw [hkinv.2.2.2]

/-! ## Claim C7 — grouping is (almost) read-only -/

/-- C7 (counterexample): the claim says `get_grouped_cart_for_checkout`
creates or writes no persistent state for every user, but for a user with
no cart document the underlying `get_or_create_cart` inserts one: on
`dbNoCart` the call changes the store by creating an empty cart. -/
theorem C7_grouping_creates_cart :
    (CartService.get_grouped_cart_for_checkout dbNoCart 1 5).1 ≠ dbNoCart ∧
    (CartService.get_grouped_cart_for_checkout dbNoCart 1 5).1.carts
      = dbNoCart.carts ++ [{ user_id := 1, items := [], created_at := 5, updated_at := 5 }] := by
  constructor
  · with_unfolding_all decide
  · with_unfolding_all decide

/-- C7 (amended): when the user already has a cart the call leaves the
store completely unchanged (no mutation of the cart's items or
timestamps, no other write); when the user has no cart, the only write is
the lazy insertion of a fresh empty cart — no existing document is
touched. -/
theorem C7_grouping_readonly (db : DB) (uid now : Nat) :
    (∀ c, db.findCart uid = some c →
      (CartService.get_grouped_cart_for_checkout db uid now).1 = db) ∧
    (db.findCart uid = none →
      (CartService.get_grouped_cart_for_checkout db uid now).1
        = { db with carts := db.carts ++
            [{ user_id := uid, items := [], created_at := now, updated_at := now }] }) := by
  constructor
  · intro c hc
    rw [CartService.get_grouped_cart_for_checkout, CartService.get_or_create_cart, hc]
  · intro hc
    rw [CartService.get_grouped_cart_for_checkout, CartService.get_or_create_cart, hc]

/-- C7 witness: on `dbCart` (buyer 1 already has a cart) the grouping call
returns the store unchanged. -/
theorem C7_grouping_readonly_witness :
    (CartService.get_grouped_cart_for_checkout dbCart 1 9).1 = dbCart :=
  (C7_grouping_readonly dbCart 1 9).1
    { user_id := 1, items := [{ product_id := 10, quantity := 3 }],
      created_at := 0, updated_at := 0 }
    (by with_unfolding_all decide)

/-! ## Claim C3 — order-before-session invariant -/

theorem setFirst_append {α} {p : α → Bool} {a b : α} {l : List α}
    (h : ∀ x ∈ l, p x = false) :
    setFirst p a (l ++ [b]) = l ++ [if p b then a else b] := by
  induction l with
  | nil => cases hpb : p b <;> simp [setFirst, hpb]
  | cons y ys ih =>
      rw [List.cons_append, setFirst, if_neg (by simp [h y (List.mem_cons_self _ _)]),
        ih (fun x hx => h x (List.mem_cons_of_mem _ hx)), List.cons_append]

/-- C3: when the buyer and seller resolve, the seller is onboarded, every
line carries a Stripe price, and the pydantic `Order(...)` validation
passes (positive total and seller amount, nonnegative fee, and every
snapshot line's quantity positive),
`create_checkout_session` first persists a PENDING order with no session
identifier; if the provider call then fails, the function surfaces the
provider-error class (`HTTPException` 400 "Stripe error") and that order
is still stored, PENDING, with no session id; if the provider call
succeeds, the same order (same id) is stored with the provider's session
identifier written onto it. -/
theorem C3_order_before_session (db : DB) (uid : Nat) (group : CartService.CartGroup)
    (now : Nat) (u seller : User) (cart_items : List CartItem) (total : ℚ)
    (hwf : db.wfOrders)
    (hu : db.getUser uid = some u)
    (hs : db.getUser group.seller_id = some seller)
    (hacct : strTruthy seller.stripe_connect_account_id = true)
    (hbuild : CheckOutService.buildItems group.items = some (cart_items, total))
    (hval : 0 < total)
    (hval2 : 0 < (CheckOutService.calculate_platform_fee total).2)
    (hitems : ∀ it ∈ cart_items, 0 < it.quantity) :
    ((CheckOutService.pendingOrder db uid group seller cart_items total now).status
        = OrderStatus.pending ∧
      (CheckOutService.pendingOrder db uid group seller cart_items total now).stripe_checkout_session_id
        = none) ∧
    (CheckOutService.create_checkout_session db uid group none now
      = ({ db with
            orders := db.orders ++ [CheckOutService.pendingOrder db uid group seller cart_items total now],
            next_order_id := db.next_order_id + 1 },
         .error .stripeError)) ∧
    (∀ s : StripeSession, CheckOutService.create_checkout_session db uid group (some s) now
      = ({ db with
            orders := db.orders ++
              [{ CheckOutService.pendingOrder db uid group seller cart_items total now with
                  stripe_checkout_session_id := some s.id }],
            next_order_id := db.next_order_id + 1 },
         .ok { session_id := s.id,
               client_secret := s.client_secret,
               order_id := db.next_order_id,
               seller_name := group.seller_name,
               total_amount := total,
               platform_fee := (CheckOutService.calculate_platform_fee total).1,
               is_recurring := group.is_recurring })) := by
  have hfee0 : 0 ≤ (CheckOutService.calculate_platform_fee total).1 := by
    have hp : (0:ℚ) ≤ CheckOutService.PLATFORM_FEE_PERCENTAGE := by
      norm_num [CheckOutService.PLATFORM_FEE_PERCENTAGE]
    exact round2_nonneg (by nlinarith)
  have hnone : ∀ x ∈ db.orders, (x.id == db.next_order_id) = false := by
    intro x hx
    have := hwf x hx
    simp only [beq_eq_false_iff_ne, ne_eq]
    omega
  refine ⟨⟨rfl, rfl⟩, ?_, ?_⟩
  · rw [CheckOutService.create_checkout_session]
    simp only [hu, hs, hbuild]
    rw [if_neg (by simp [hacct]), if_neg (not_not.mpr ⟨hval, hval2, hfee0, hitems⟩)]
    rfl
  · intro s
    rw [CheckOutService.create_checkout_session]
    simp only [hu, hs, hbuild]
    rw [if_neg (by simp [hacct]), if_neg (not_not.mpr ⟨hval, hval2, hfee0, hitems⟩)]
    rw [DB.saveOrder]
    dsimp only
    rw [setFirst_append hnone]
    simp [CheckOutService.pendingOrder]

/-- C3 witness: on `dbCart` with the single one-time group of seller 2
(products worth 15.00), a failing provider call leaves exactly the new
PENDING order (no session id) in the store and surfaces the Stripe
error. -/
theorem C3_order_before_session_witness :
    CheckOutService.create_checkout_session dbCart 1 groupA none 3
      = ({ dbCart with
            orders := dbCart.orders ++
              [CheckOutService.pendingOrder dbCart 1 groupA sellerOnboarded
                [{ product_id := 10, quantity := 3 }] 15 3],
            next_order_id := dbCart.next_order_id + 1 },
         .error .stripeError) :=
  (C3_order_before_session dbCart 1 groupA 3 buyer sellerOnboarded
    [{ product_id := 10, quantity := 3 }] 15
    (by intro o ho; simp [dbCart] at ho)
    (by with_unfolding_all decide)
    (by with_unfolding_all decide)
    (by with_unfolding_all decide)
    (by with_unfolding_all decide)
    (by norm_num)
    (by with_unfolding_all decide)
    (by decide)).2.1

/-! ## Claim C5 — partial-failure semantics of multi-group checkout -/

/-- One session-creation call only ever appends to the order collection
(never deletes or rewrites an existing order), and keeps ids below the
supply. -/
theorem ccs_state (db : DB) (uid : Nat) (g : CartService.CartGroup)
    (pr : Option StripeSession) (now : Nat) (hwf : db.wfOrders) :
    (∃ tl, (CheckOutService.create_checkout_session db uid g pr now).1.orders
      = db.orders ++ tl) ∧
    (CheckOutService.create_checkout_session db uid g pr now).1.wfOrders := by
  have hnone : ∀ x ∈ db.orders, (x.id == db.next_order_id) = false := by
    intro x hx
    have := hwf x hx
    simp only [beq_eq_false_iff_ne, ne_eq]
    omega
  rw [CheckOutService.create_checkout_session]
  cases hu : db.getUser uid with
  | none => exact ⟨⟨[], by simp⟩, hwf⟩
  | some u =>
  cases hs : db.getUser g.seller_id with
  | none => exact ⟨⟨[], by simp⟩, hwf⟩
  | some seller =>
  dsimp only
  by_cases hacct : strTruthy seller.stripe_connect_account_id = true
  case neg => rw [if_pos hacct]; exact ⟨⟨[], by simp⟩, hwf⟩
  case pos =>
  rw [if_neg (not_not.mpr hacct)]
  cases hb : CheckOutService.buildItems g.items with
  | none => exact ⟨⟨[], by simp⟩, hwf⟩
  | some ct =>
  obtain ⟨cart_items, total⟩ := ct
  dsimp only
  by_cases hv : 0 < total ∧ 0 < (CheckOutService.calculate_platform_fee total).2 ∧
      0 ≤ (CheckOutService.calculate_platform_fee total).1 ∧
      ∀ it ∈ cart_items, 0 < it.quantity
  case neg => rw [if_pos hv]; exact ⟨⟨[], by simp⟩, hwf⟩
  case pos =>
  rw [if_neg (not_not.mpr hv)]
  cases pr with
  | none =>
      refine ⟨⟨_, rfl⟩, ?_⟩
      simp only [DB.wfOrders]
      intro o ho
      rcases List.mem_append.mp ho with ho' | ho'
      · have := hwf o ho'
        omega
      · rcases List.mem_singleton.mp ho' with rfl
        simp
  | some s =>
      dsimp only
      rw [DB.saveOrder]
      dsimp only
      rw [setFirst_append hnone]
      simp only [beq_self_eq_true, if_true]
      refine ⟨⟨_, rfl⟩, ?_⟩
      simp only [DB.wfOrders]
      intro o ho
      rcases List.mem_append.mp ho with ho' | ho'
      · have := hwf o ho'
        omega
      · rcases List.mem_singleton.mp ho' with rfl
        simp

/-- The per-group loop only appends orders, keeps the store well-formed,
and on success returns exactly one result per group. -/
theorem sessionsLoop_state (uid now : Nat) (providers : Nat → Option StripeSession) :
    ∀ (gs : List CartService.CartGroup) (i : Nat) (db : DB), db.wfOrders →
      (∃ tl, (CheckOutService.sessionsLoop uid now providers gs i db).1.orders
        = db.orders ++ tl) ∧
      (CheckOutService.sessionsLoop uid now providers gs i db).1.wfOrders ∧
      (∀ l, (CheckOutService.sessionsLoop uid now providers gs i db).2 = .ok l →
        l.length = gs.length) := by
  intro gs
  induction gs with
  | nil =>
      intro i db hwf
      refine ⟨⟨[], by simp [CheckOutService.sessionsLoop]⟩, hwf, ?_⟩
      intro l hl
      simp only [CheckOutService.sessionsLoop] at hl
      injection hl with hl
      simp [← hl]
  | cons g rest ih =>
      intro i db hwf
      obtain ⟨⟨tl1, htl1⟩, hwf1⟩ := ccs_state db uid g (providers i) now hwf
      rw [CheckOutService.sessionsLoop]
      rcases hc : CheckOutService.create_checkout_session db uid g (providers i) now with ⟨db1, r⟩
      rw [hc] at htl1 hwf1
      cases r with
      | error e =>
          exact ⟨⟨tl1, htl1⟩, hwf1, fun l hl => by simp at hl⟩
      | ok r =>
          dsimp only
          obtain ⟨⟨tl2, htl2⟩, hwf2, hlen⟩ := ih (i + 1) db1 hwf1
          rcases hl : CheckOutService.sessionsLoop uid now providers rest (i + 1) db1 with ⟨db2, r2⟩
          rw [hl] at htl2 hwf2
          cases r2 with
          | error e =>
              refine ⟨⟨tl1 ++ tl2, ?_⟩, hwf2, fun l hl' => by simp at hl'⟩
              rw [htl2, htl1, List.append_assoc]
          | ok rs =>
              refine ⟨⟨tl1 ++ tl2, ?_⟩, hwf2, ?_⟩
              · rw [htl2, htl1, List.append_assoc]
              · intro l hl'
                have hl2 : r :: rs = l := by simpa using hl'
                have hr : rs.length = rest.length := by
                  have := hlen rs
                  rw [hl] at this
                  exact this rfl
                simp [← hl2, hr]

/-- Processing a longer group list never loses the orders the shorter
prefix had produced: a failure at a later group leaves every earlier
group's orders in place. -/
theorem sessionsLoop_extends (uid now : Nat) (providers : Nat → Option StripeSession) :
    ∀ (gs1 gs2 : List CartService.CartGroup) (i : Nat) (db : DB), db.wfOrders →
      ∃ tl, (CheckOutService.sessionsLoop uid now providers (gs1 ++ gs2) i db).1.orders
        = (CheckOutService.sessionsLoop uid now providers gs1 i db).1.orders ++ tl := by
  intro gs1
  induction gs1 with
  | nil =>
      intro gs2 i db hwf
      obtain ⟨⟨tl, htl⟩, -, -⟩ := sessionsLoop_state uid now providers gs2 i db hwf
      exact ⟨tl, by simpa [CheckOutService.sessionsLoop] using htl⟩
  | cons g rest ih =>
      intro gs2 i db hwf
      obtain ⟨-, hwf1⟩ := ccs_state db uid g (providers i) now hwf
      rw [List.cons_append, CheckOutService.sessionsLoop, CheckOutService.sessionsLoop]
      rcases hc : CheckOutService.create_checkout_session db uid g (providers i) now with ⟨db1, r⟩
      rw [hc] at hwf1
      cases r with
      | error e => exact ⟨[], by simp⟩
      | ok r =>
          dsimp only
          obtain ⟨tl, htl⟩ := ih gs2 (i + 1) db1 hwf1
          rcases hfull : CheckOutService.sessionsLoop uid now providers (rest ++ gs2) (i + 1) db1
            with ⟨dbf, rf⟩
          rcases hpart : CheckOutService.sessionsLoop uid now providers rest (i + 1) db1
            with ⟨dbp, rp⟩
          rw [hfull, hpart] at htl
          cases rf <;> cases rp <;> exact ⟨tl, htl⟩

/-- The grouping call leaves the order collection and the id supply
untouched (its only possible write is the lazy cart creation). -/
theorem ggc_orders (db : DB) (uid now : Nat) :
    (CartService.get_grouped_cart_for_checkout db uid now).1.orders = db.orders ∧
    (CartService.get_grouped_cart_for_checkout db uid now).1.next_order_id
      = db.next_order_id := by
  cases hf : db.findCart uid <;>
    simp [CartService.get_grouped_cart_for_checkout, CartService.get_or_create_cart, hf]

/-- C5: `create_all_checkout_sessions` processes the groups sequentially;
it never rolls an order back (the order collection of the resulting store
extends the initial one), a success returns exactly one session result
per group, and for any split of the group list the full run's store
extends the store produced by processing just the earlier groups — in
particular a provider failure on group B leaves group A's order and
session in place; an empty grouping fails with the empty-cart error and
writes nothing. -/
theorem C5_create_all_partial_failure (db : DB) (uid : Nat)
    (providers : Nat → Option StripeSession) (now : Nat) (hwf : db.wfOrders) :
    (∃ tl, (CheckOutService.create_all_checkout_sessions db uid providers now).1.orders
      = db.orders ++ tl) ∧
    (∀ l, (CheckOutService.create_all_checkout_sessions db uid providers now).2 = .ok l →
      l.length = (CartService.get_grouped_cart_for_checkout db uid now).2.length) ∧
    (∀ gs1 gs2, (CartService.get_grouped_cart_for_checkout db uid now).2 = gs1 ++ gs2 →
      ∃ tl, (CheckOutService.create_all_checkout_sessions db uid providers now).1.orders
        = (CheckOutService.sessionsLoop uid now providers gs1 0
            (CartService.get_grouped_cart_for_checkout db uid now).1).1.orders ++ tl) ∧
    ((CartService.get_grouped_cart_for_checkout db uid now).2 = [] →
      (CheckOutService.create_all_checkout_sessions db uid providers now).2
        = .error .emptyCart ∧
      (CheckOutService.create_all_checkout_sessions db uid providers now).1.orders
        = db.orders) := by
  obtain ⟨hord, hnext⟩ := ggc_orders db uid now
  have hwf0 : (CartService.get_grouped_cart_for_checkout db uid now).1.wfOrders := by
    simp only [DB.wfOrders] at hwf ⊢
    rw [hord, hnext]
    exact hwf
  by_cases hempty : (CartService.get_grouped_cart_for_checkout db uid now).2.isEmpty = true
  · have hres : CheckOutService.create_all_checkout_sessions db uid providers now
        = ((CartService.get_grouped_cart_for_checkout db uid now).1, .error .emptyCart) := by
      rw [CheckOutService.create_all_checkout_sessions, if_pos hempty]
    refine ⟨⟨[], by rw [hres]; simpa using hord⟩, ?_, ?_, ?_⟩
    · intro l hl
      rw [hres] at hl
      simp at hl
    · intro gs1 gs2 hsplit
      rcases List.append_eq_nil.mp ((List.isEmpty_iff.mp hempty) ▸ hsplit).symm with ⟨rfl, rfl⟩
      refine ⟨[], ?_⟩
      rw [hres]
      simp [CheckOutService.sessionsLoop]
    · intro hnil
      rw [hres]
      exact ⟨rfl, by simpa using hord⟩
  · have hres : CheckOutService.create_all_checkout_sessions db uid providers now
        = CheckOutService.sessionsLoop uid now providers
            (CartService.get_grouped_cart_for_checkout db uid now).2 0
            (CartService.get_grouped_cart_for_checkout db uid now).1 := by
      rw [CheckOutService.create_all_checkout_sessions, if_neg hempty]
    obtain ⟨⟨tl, htl⟩, -, hlen⟩ := sessionsLoop_state uid now providers
      (CartService.get_grouped_cart_for_checkout db uid now).2 0
      (CartService.get_grouped_cart_for_checkout db uid now).1 hwf0
    refine ⟨⟨tl, by rw [hres, htl, hord]⟩, ?_, ?_, ?_⟩
    · intro l hl
      rw [hres] at hl
      exact hlen l hl
    · intro gs1 gs2 hsplit
      obtain ⟨tl2, htl2⟩ := sessionsLoop_extends uid now providers gs1 gs2 0
        (CartService.get_grouped_cart_for_checkout db uid now).1 hwf0
      refine ⟨tl2, ?_⟩
      rw [hres, hsplit]
      exact htl2
    · intro hnil
      rw [hnil] at hempty
      simp at hempty

/-- C5 witness: on `dbTwo` (two groups: one-time product 10, recurring
product 11) with a provider that accepts the first session and rejects
the second, the run fails with the Stripe error yet the store holds both
group A's order — PENDING with its session id "sess_A" — and group B's
PENDING order without one. -/
theorem C5_create_all_partial_failure_witness :
    dbTwo.wfOrders ∧
    (∃ tl, (CheckOutService.create_all_checkout_sessions dbTwo 1 providersAB 5).1.orders
      = dbTwo.orders ++ tl) ∧
    ((CheckOutService.create_all_checkout_sessions dbTwo 1 providersAB 5).2
        = .error .stripeError ∧
      (CheckOutService.create_all_checkout_sessions dbTwo 1 providersAB 5).1.orders.map
          (fun o => (o.id, o.status, o.stripe_checkout_session_id))
        = [(0, OrderStatus.pending, some "sess_A"), (1, OrderStatus.pending, none)]) :=
  ⟨by simp [DB.wfOrders, dbTwo],
    (C5_create_all_partial_failure dbTwo 1 providersAB 5 (by simp [DB.wfOrders, dbTwo])).1,
    by constructor
       · with_unfolding_all decide
       · with_unfolding_all decide⟩

/-! ## Claims C9 and C1 — webhook completion transition -/

theorem find?_setFirst {α} {p : α → Bool} {a : α} {l : List α}
    (hex : l.any p = true) (ha : p a = true) :
    (setFirst p a l).find? p = some a := by
  induction l with
  | nil => simp at hex
  | cons y ys ih =>
      rw [setFirst]
      by_cases hy : p y = true
      · rw [if_pos hy]
        simp [List.find?_cons, ha]
      · rw [if_neg hy]
        have hex' : ys.any p = true := by
          simp only [List.any_cons] at hex
          rcases Bool.or_eq_true_iff.mp hex with h1 | h1
          · exact absurd h1 hy
          · exact h1
        have hy0 : p y = false := by simpa using hy
        simp only [List.find?_cons, hy0]
        exact ih hex'

theorem find?_key_of_nodup {α} {key : α → Nat} {u : α} {l : List α} (hmem : u ∈ l)
    (hnodup : (l.map key).Nodup) :
    l.find? (fun x => key x == key u) = some u := by
  induction l with
  | nil => simp at hmem
  | cons y ys ih =>
      have hnodup' := hnodup
      rw [List.map_cons, List.nodup_cons] at hnodup'
      obtain ⟨hy, hys⟩ := hnodup'
      rcases List.mem_cons.mp hmem with rfl | hmem'
      · simp [List.find?_cons]
      · have hne : (key y == key u) = false := by
          simp only [beq_eq_false_iff_ne, ne_eq]
          intro hc
          exact hy (hc ▸ List.mem_map_of_mem key hmem')
        simp only [List.find?_cons, hne]
        exact ih hmem' hys

/-- C9 (implicit): a single webhook completion call on an order found by
its session id applies the transition unconditionally — the returned and
stored order carry status COMPLETED, a fresh `completed_at`/`updated_at`
of the call time, and the retrieved payment-intent value, for every prior
status (the hypothesis places no constraint on `order.status`) and
independently of the retrieved session's payment state (the retrieved
value is only copied into `stripe_payment_intent_id`). -/
theorem C9_completion_unguarded (db : DB) (sid : String) (pi : Option String) (now : Nat)
    (order : Order)
    (hfind : db.orders.find? (fun o => o.stripe_checkout_session_id == some sid)
      = some order) :
    (CheckOutService.handle_checkout_completion db sid pi now).2
      = .ok { order with
              status := .completed, stripe_payment_intent_id := pi,
              completed_at := some now, updated_at := now } ∧
    (CheckOutService.handle_checkout_completion db sid pi now).1.orders.find?
        (fun o => o.id == order.id)
      = some { order with
               status := .completed, stripe_payment_intent_id := pi,
               completed_at := some now, updated_at := now } := by
  have hmem : order ∈ db.orders := List.mem_of_find?_eq_some hfind
  have hex : db.orders.any (fun o => o.id == order.id) = true :=
    List.any_eq_true.mpr ⟨order, hmem, by simp⟩
  rw [CheckOutService.handle_checkout_completion]
  simp only [hfind]
  cases hcart : (db.saveOrder { order with
      status := .completed,
      stripe_payment_intent_id := pi, completed_at := some now,
      updated_at := now }).findCart order.user_id with
  | none =>
      refine ⟨rfl, ?_⟩
      rw [DB.saveOrder]
      dsimp only
      exact find?_setFirst hex (by simp)
  | some cart =>
      refine ⟨rfl, ?_⟩
      dsimp only
      rw [DB.saveCart]
      dsimp only
      rw [DB.saveOrder]
      dsimp only
      exact find?_setFirst hex (by simp)

/-- C9 witness: the pending order of `dbOrder` (session "sess_1") is
driven to COMPLETED with payment intent "pi_1" and timestamps 7. -/
theorem C9_completion_unguarded_witness :
    (CheckOutService.handle_checkout_completion dbOrder "sess_1" (some "pi_1") 7).2
      = .ok { id := 0, user_id := 1, seller_id := 2,
              items := [{ product_id := 10, quantity := 2 }],
              total_amount := 10, platform_fee_amount := 1, seller_amount := 9,
              is_recurring := false, status := .completed,
              stripe_checkout_session_id := some "sess_1",
              stripe_payment_intent_id := some "pi_1",
              stripe_account_id := some "acct_2",
              created_at := 0, updated_at := 7, completed_at := some 7 } :=
  (C9_completion_unguarded dbOrder "sess_1" (some "pi_1") 7
    { id := 0, user_id := 1, seller_id := 2,
      items := [{ product_id := 10, quantity := 2 }],
      total_amount := 10, platform_fee_amount := 1, seller_amount := 9,
      is_recurring := false, status := .pending,
      stripe_checkout_session_id := some "sess_1",
      stripe_payment_intent_id := none,
      stripe_account_id := some "acct_2",
      created_at := 0, updated_at := 0, completed_at := none }
    (by with_unfolding_all decide)).1

/-- C1 (code divergence, evaluated at the failing input): delivering the
same `checkout.session.completed` twice for session "sess_1" of `dbOrder`
(first call at time 1, second at time 2): the second call raises no
error and the order is COMPLETED after both calls, and the second call
removes nothing further from the cart — but `completed_at` after the
second call is the second call's timestamp (2), not the value (1) set by
the first call: the transition is re-applied unconditionally. -/
theorem C1_duplicate_webhook_overwrites_completed_at :
    ((CheckOutService.handle_checkout_completion dbOrder "sess_1" (some "pi_1") 1).2.map
        (fun o => (o.status, o.completed_at)) = .ok (OrderStatus.completed, some 1)) ∧
    ((CheckOutService.handle_checkout_completion
        (CheckOutService.handle_checkout_completion dbOrder "sess_1" (some "pi_1") 1).1
        "sess_1" (some "pi_1") 2).2.map
        (fun o => (o.status, o.completed_at)) = .ok (OrderStatus.completed, some 2)) ∧
    ((CheckOutService.handle_checkout_completion
        (CheckOutService.handle_checkout_completion dbOrder "sess_1" (some "pi_1") 1).1
        "sess_1" (some "pi_1") 2).1.carts
      = (CheckOutService.handle_checkout_completion dbOrder "sess_1" (some "pi_1") 1).1.carts) := by
  refine ⟨?_, ?_, ?_⟩
  · with_unfolding_all decide
  · with_unfolding_all decide
  · with_unfolding_all decide

/-! ## Claim C8 — connect-account reconciler -/

/-- C8: when a seller is found by connected-account id, the reconciler
stores exactly the computed target status, that target is ACTIVE iff both
`charges_enabled` and `payouts_enabled` hold, and when the target equals
the currently stored status the store is untouched and no save happens. -/
theorem C8_connect_reconciler (db : DB) (cid : String) (charges payouts : Bool) (u : User)
    (hfind : Webhook.getUserByConnectId db cid = some u)
    (hnodup : db.usersNodup) :
    ((Webhook.handle_connect_account_update db cid charges payouts).1.users.find?
        (fun x => x.id == u.id)).map (fun x => x.stripe_provider_status)
      = some (Webhook.targetStatus u.stripe_provider_status charges payouts) ∧
    (Webhook.targetStatus u.stripe_provider_status charges payouts
        = StripeProviderStatus.active ↔ (charges = true ∧ payouts = true)) ∧
    (Webhook.targetStatus u.stripe_provider_status charges payouts
        = u.stripe_provider_status →
      Webhook.handle_connect_account_update db cid charges payouts = (db, false)) := by
  have hmem : u ∈ db.users := List.mem_of_find?_eq_some hfind
  have hex : db.users.any (fun x => x.id == u.id) = true :=
    List.any_eq_true.mpr ⟨u, hmem, by simp⟩
  refine ⟨?_, ?_, ?_⟩
  · rw [Webhook.handle_connect_account_update]
    simp only [hfind]
    by_cases heq : u.stripe_provider_status
        = Webhook.targetStatus u.stripe_provider_status charges payouts
    · rw [if_pos heq]
      dsimp only
      have : db.users.find? (fun x => x.id == u.id) = some u :=
        find?_key_of_nodup hmem hnodup
      rw [this]
      simp [← heq]
    · rw [if_neg heq]
      dsimp only
      rw [DB.saveUser]
      dsimp only
      rw [find?_setFirst hex (by simp)]
      simp
  · constructor
    · intro h
      by_cases hcp : (charges && payouts) = true
      · have hcp' := hcp
        simp only [Bool.and_eq_true] at hcp'
        exact hcp'
      · exfalso
        rw [Webhook.targetStatus, if_neg (by simp [hcp])] at h
        by_cases hact : u.stripe_provider_status = StripeProviderStatus.active
        · rw [if_pos hact] at h
          cases h
        · rw [if_neg hact] at h
          exact hact h
    · rintro ⟨rfl, rfl⟩
      rw [Webhook.targetStatus]
      simp
  · intro heq
    rw [Webhook.handle_connect_account_update]
    simp only [hfind]
    rw [if_pos heq.symm]

/-- C8 witness: seller 2 of `dbCart` is already ACTIVE; the
`account.updated` event with both flags enabled computes target ACTIVE
and performs no write. -/
theorem C8_connect_reconciler_witness :
    Webhook.handle_connect_account_update dbCart "acct_2" true true = (dbCart, false) :=
  (C8_connect_reconciler dbCart "acct_2" true true sellerOnboarded
    (by with_unfolding_all decide)
    (by simp only [DB.usersNodup]; decide)).2.2
    (by with_unfolding_all decide)

end Gigsta
